import Mathlib

/-!
# Verification of the ID-photo processing core (`process_photo.py`)

Shallow embedding of the geometric pipeline of the repository:

* `cropWithPadding`, `cropToSpec`  — the CropEngine (`crop_to_spec`,
  `crop_with_padding` in the source);
* `buildPrintSheet`                — the SheetPacker (`build_print_sheet`);
* `getForegroundMask`, `replaceBackground` — the SegmentationCascade and
  Compositor (`get_foreground_mask`, `replace_background`);
* `detectFace`                     — the FaceLocator (`detect_face`).

Machine integers are modelled as `ℤ`, Python floats as `ℚ` (all float
computations relevant to the claims are exact at the inputs considered).
External library capabilities (OpenCV filters, the MediaPipe segmenter,
`np.std` / `np.linalg.norm`, which involve irrational square roots) are
modelled as an explicit environment of opaque shape-preserving functions,
exactly as the spec treats them ("opaque external capability").
Images are total functions from coordinates to pixel values together with
explicit integer dimensions; out-of-range reads are never relied upon.
-/

set_option maxRecDepth 100000

namespace IDPhoto

/-- An 8-bit BGR pixel value (channel order is irrelevant to the claims). -/
abbrev Px := ℤ × ℤ × ℤ

/-- Python's `round` / NumPy's rounding / OpenCV's `cvRound`: round half to
even. `int(round(x))` in the source is exactly this function on the exact
rational value. -/
def pyRound (q : ℚ) : ℤ :=
  if q - ⌊q⌋ < 1/2 then ⌊q⌋
  else if 1/2 < q - ⌊q⌋ then ⌊q⌋ + 1
  else if ⌊q⌋ % 2 = 0 then ⌊q⌋ else ⌊q⌋ + 1

/-- Python's `int(x)` on a float: truncation toward zero. -/
def pyInt (q : ℚ) : ℤ :=
  if q < 0 then -(⌊-q⌋) else ⌊q⌋

/-- A pixel grid in NumPy convention: `pix` takes row then column.
`h`, `w` are the (nonnegative, in any real run) dimensions. -/
structure Img where
  h : ℤ
  w : ℤ
  pix : ℤ → ℤ → Px

/-- NumPy slice-index normalisation along an axis of length `n`: negative
indices count from the end, then the index is clamped into `[0, n]`. -/
def npIdx (n i : ℤ) : ℤ :=
  max 0 (min (if i < 0 then i + n else i) n)

/-- NumPy 2-d slice `img[top:bottom, left:right]`. -/
def npSlice2d (img : Img) (top bottom left right : ℤ) : Img :=
  let y0 := npIdx img.h top
  let y1 := npIdx img.h bottom
  let x0 := npIdx img.w left
  let x1 := npIdx img.w right
  { h := max 0 (y1 - y0), w := max 0 (x1 - x0),
    pix := fun Y X => img.pix (y0 + Y) (x0 + X) }

/-- `cv2.copyMakeBorder` with `BORDER_CONSTANT`: pad on each side with the
given colour. -/
def copyMakeBorder (img : Img) (pt pb pl pr : ℤ) (bg : Px) : Img :=
  { h := img.h + pt + pb, w := img.w + pl + pr,
    pix := fun Y X =>
      if pt ≤ Y ∧ Y < pt + img.h ∧ pl ≤ X ∧ X < pl + img.w then
        img.pix (Y - pt) (X - pl)
      else bg }

/-- `crop_with_padding` from the source: pad the image so that the requested
rectangle is inside bounds, then slice it out. -/
def cropWithPadding (img : Img) (left top width height : ℤ) (bg : Px) : Img :=
  let right := left + width
  let bottom := top + height
  let padLeft := max 0 (-left)
  let padTop := max 0 (-top)
  let padRight := max 0 (right - img.w)
  let padBottom := max 0 (bottom - img.h)
  let padded :=
    if padLeft ≠ 0 ∨ padTop ≠ 0 ∨ padRight ≠ 0 ∨ padBottom ≠ 0 then
      (copyMakeBorder img padTop padBottom padLeft padRight bg,
        left + padLeft, top + padTop)
    else (img, left, top)
  npSlice2d padded.1 padded.2.2 (padded.2.2 + height) padded.2.1
    (padded.2.1 + width)

/-- The type of the external interpolation kernel used by `cv2.resize`
(`INTER_CUBIC` / `INTER_AREA`); the claims do not depend on pixel values
produced by resizing, only on the output dimensions, which OpenCV computes
as `round(scale * dim)`. -/
abbrev Interp := Img → ℚ → ℤ → ℤ → Px

/-- `cv2.resize(img, None, fx=s, fy=s, ...)`: output dimensions are
`cvRound(s * dim)`; pixel values come from the external kernel. -/
def cv2Resize (img : Img) (s : ℚ) (interp : Interp) : Img :=
  { h := pyRound (s * img.h), w := pyRound (s * img.w), pix := interp img s }

/-- `cv2.resize(img, (w, h), ...)` with an explicit target size. -/
def cv2ResizeTo (img : Img) (w h : ℤ) (interp : Interp) : Img :=
  { h := h, w := w, pix := interp img 0 }

/-- `PhotoSpec` from the source (dimensions already converted to inches). -/
structure PhotoSpec where
  width_in : ℚ
  height_in : ℚ
  head_height_ratio : ℚ
  eye_line_from_bottom_ratio : ℚ
  background_rgb : Px

/-- `compute_output_size_px`. -/
def computeOutputSizePx (spec : PhotoSpec) (dpi : ℤ) : ℤ × ℤ :=
  (pyRound (spec.width_in * dpi), pyRound (spec.height_in * dpi))

/-- The crop of `crop_to_spec` before the final aspect-ratio check: scale
uniformly so the face box height matches the spec's head-height ratio,
anchor the eye line, and crop with padding. -/
def cropToSpecCropped (interp : Interp) (img : Img) (bbox : ℤ × ℤ × ℤ × ℤ)
    (eye : ℤ × ℤ) (spec : PhotoSpec) (dpi : ℤ) (bg : Option Px) : Img :=
  let outW := (computeOutputSizePx spec dpi).1
  let outH := (computeOutputSizePx spec dpi).2
  let boxH := bbox.2.2.2
  let targetHeadHeight : ℚ := spec.head_height_ratio * outH
  let scale : ℚ := targetHeadHeight / (max boxH 1)
  let resized := cv2Resize img scale interp
  let eyeX := pyRound (eye.1 * scale)
  let eyeY := pyRound (eye.2 * scale)
  let targetEyeY := pyRound ((outH : ℚ) * (1 - spec.eye_line_from_bottom_ratio))
  let left := pyRound ((eyeX : ℚ) - (outW : ℚ) / 2)
  let top := pyRound ((eyeY : ℚ) - (targetEyeY : ℚ))
  let padRgb := bg.getD spec.background_rgb
  cropWithPadding resized left top outW outH padRgb

/-- `crop_to_spec` from the source: the padded crop, followed by a forced
resize only if the aspect ratio is off by more than 5%. -/
def cropToSpec (interp : Interp) (img : Img) (bbox : ℤ × ℤ × ℤ × ℤ)
    (eye : ℤ × ℤ) (spec : PhotoSpec) (dpi : ℤ) (bg : Option Px) : Img :=
  let outW := (computeOutputSizePx spec dpi).1
  let outH := (computeOutputSizePx spec dpi).2
  let cropped := cropToSpecCropped interp img bbox eye spec dpi bg
  if |(cropped.w : ℚ) / (cropped.h : ℚ) - (outW : ℚ) / (outH : ℚ)| > 5/100 then
    cv2ResizeTo cropped outW outH interp
  else cropped

/-- `LayoutSpec` from the source: sheet paper dimensions in inches. -/
structure LayoutSpec where
  width_in : ℚ
  height_in : ℚ

/-- Sheet width in pixels: `int(round(layout.width_in * dpi))`. -/
def sheetW (layout : LayoutSpec) (dpi : ℤ) : ℤ := pyRound (layout.width_in * dpi)

/-- Sheet height in pixels. -/
def sheetH (layout : LayoutSpec) (dpi : ℤ) : ℤ := pyRound (layout.height_in * dpi)

/-- Margin in pixels: `int(round(margin_in * dpi))`. -/
def marginPx (margin_in : ℚ) (dpi : ℤ) : ℤ := pyRound (margin_in * dpi)

/-- Spacing in pixels: `int(round(spacing_in * dpi))`. -/
def spacingPx (spacing_in : ℚ) (dpi : ℤ) : ℤ := pyRound (spacing_in * dpi)

/-- Available width on the sheet: `sheet_w - 2 * margin`. -/
def availW (layout : LayoutSpec) (dpi : ℤ) (margin_in : ℚ) : ℤ :=
  sheetW layout dpi - 2 * marginPx margin_in dpi

/-- Available height on the sheet. -/
def availH (layout : LayoutSpec) (dpi : ℤ) (margin_in : ℚ) : ℤ :=
  sheetH layout dpi - 2 * marginPx margin_in dpi

/-- How many cells of size `cell` fit in `avail` with `spacing` between them:
`max(1, (avail + spacing) // (cell + spacing))` — the source clamps the
floor-division count to at least 1.  Python `//` is floor division,
i.e. `Int.fdiv`. -/
def fitCount (avail spacing cell : ℤ) : ℤ :=
  max 1 ((avail + spacing).fdiv (cell + spacing))

/-- Total cells in the original orientation
(`total_photos_orig = max_cols_orig * max_rows_orig`). -/
def totalOrig (aW aH spacing pw ph : ℤ) : ℤ :=
  fitCount aW spacing pw * fitCount aH spacing ph

/-- Total cells with the photo rotated 90° (cell dimensions swapped). -/
def totalRot (aW aH spacing pw ph : ℤ) : ℤ :=
  fitCount aW spacing ph * fitCount aH spacing pw

/-- The source's orientation choice:
`if total_photos_rot > total_photos_orig` then rotate. -/
def sheetRotates (aW aH spacing pw ph : ℤ) : Bool :=
  totalRot aW aH spacing pw ph > totalOrig aW aH spacing pw ph

/-- `photo.rotate(90, expand=True)`: 90° counter-clockwise rotation,
output size `h × w`. -/
def rotate90 (img : Img) : Img :=
  { h := img.w, w := img.h, pix := fun Y X => img.pix X (img.w - 1 - Y) }

/-- Membership of point `(Y, X)` in the filled rectangle of top-left
`(x0, y0)` and size `w × h`. -/
def inRect (x0 y0 w h Y X : ℤ) : Bool :=
  decide (x0 ≤ X) && decide (X < x0 + w) && decide (y0 ≤ Y) && decide (Y < y0 + h)

/-- PIL `draw.rectangle([(x0,y0),(x1,y1)], outline=..., width=1)`: the
1-pixel outline of the inclusive rectangle. -/
def onRectOutline (x0 y0 x1 y1 Y X : ℤ) : Bool :=
  (decide (x0 ≤ X) && decide (X ≤ x1) && (decide (Y = y0) || decide (Y = y1))) ||
  (decide (y0 ≤ Y) && decide (Y ≤ y1) && (decide (X = x0) || decide (X = x1)))

/-- PIL `draw.line` between `(xa, y)` and `(xb, y)`, width 1 (endpoints
included). -/
def onHSeg (xa xb y Y X : ℤ) : Bool :=
  decide (Y = y) && decide (min xa xb ≤ X) && decide (X ≤ max xa xb)

/-- PIL `draw.line` between `(x, ya)` and `(x, yb)`, width 1. -/
def onVSeg (x ya yb Y X : ℤ) : Bool :=
  decide (X = x) && decide (min ya yb ≤ Y) && decide (Y ≤ max ya yb)

/-- Paint `color` over the pixels of `img` inside `region`; PIL clips all
drawing and pasting to the image bounds. -/
def paint (img : Img) (region : ℤ → ℤ → Bool) (color : ℤ → ℤ → Px) : Img :=
  { img with pix := fun Y X =>
      if (0 ≤ X ∧ X < img.w ∧ 0 ≤ Y ∧ Y < img.h) ∧ region Y X = true then
        color Y X
      else img.pix Y X }

/-- `sheet.paste(photo, (x, y))`. -/
def pasteCell (photo : Img) (x y : ℤ) (s : Img) : Img :=
  paint s (fun Y X => inRect x y photo.w photo.h Y X)
    (fun Y X => photo.pix (Y - y) (X - x))

/-- The photo outline drawn when guides are enabled
(colour `(210, 210, 210)`). -/
def drawOutline (x y pw ph : ℤ) (s : Img) : Img :=
  paint s (fun Y X => onRectOutline x y (x + pw - 1) (y + ph - 1) Y X)
    (fun _ _ => (210, 210, 210))

/-- The L-shaped corner tick marks of one placed photo: the eight
`draw.line` calls of the source, colour `(180, 180, 180)`,
`corner_size = 5`. -/
def cornerTicks (x y pw ph Y X : ℤ) : Bool :=
  onHSeg x (x + 5) y Y X ||
  onVSeg x y (y + 5) Y X ||
  onHSeg (x + pw - 1) (x + pw - 1 - 5) y Y X ||
  onVSeg (x + pw - 1) y (y + 5) Y X ||
  onHSeg x (x + 5) (y + ph - 1) Y X ||
  onVSeg x (y + ph - 1) (y + ph - 1 - 5) Y X ||
  onHSeg (x + pw - 1) (x + pw - 1 - 5) (y + ph - 1) Y X ||
  onVSeg (x + pw - 1) (y + ph - 1) (y + ph - 1 - 5) Y X

/-- The cells `(row, col)` that receive a photo, in row-major order: the
placement loop pastes while `placed < copies`, so exactly the cells with
`row * max_cols + col < copies` are used (and the corner-mark loop uses the
same condition). -/
def placedCells (maxRows maxCols copies : ℤ) : List (ℤ × ℤ) :=
  ((List.range maxRows.toNat).flatMap fun r =>
    (List.range maxCols.toNat).map fun c => ((r : ℤ), (c : ℤ))).filter
    fun rc => decide (rc.1 * maxCols + rc.2 < copies)

/-- X pixel of the cell in column `c`. -/
def cellX (leftMargin pw spacing c : ℤ) : ℤ := leftMargin + c * (pw + spacing)

/-- Y pixel of the cell in row `r`. -/
def cellY (topMargin ph spacing r : ℤ) : ℤ := topMargin + r * (ph + spacing)

/-- The centred left margin:
`margin + (available_width - total_photos_width) // 2`. -/
def centeredMargin (margin avail cells cell spacing : ℤ) : ℤ :=
  margin + (avail - (cells * cell + (cells - 1) * spacing)).fdiv 2

/-- One iteration of the placement loop: paste the photo at its cell and,
when guides are drawn, outline it. -/
def pasteStep (photo' : Img) (lm tm pw ph spacing : ℤ) (drawGuides : Bool)
    (s : Img) (rc : ℤ × ℤ) : Img :=
  let x := cellX lm pw spacing rc.2
  let y := cellY tm ph spacing rc.1
  let sp := pasteCell photo' x y s
  if drawGuides then drawOutline x y pw ph sp else sp

/-- One vertical cut-guide line (at column boundary `cIdx`, offset by half
the spacing). -/
def vlineStep (lm tm pw ph spacing rows : ℤ) (s : Img) (cIdx : ℕ) : Img :=
  let x := cellX lm pw spacing (cIdx : ℤ) - spacing.fdiv 2
  paint s (fun Y X => onVSeg x tm (tm + rows * ph + (rows - 1) * spacing) Y X)
    (fun _ _ => (200, 200, 200))

/-- One horizontal cut-guide line. -/
def hlineStep (lm tm pw ph spacing cols : ℤ) (s : Img) (rIdx : ℕ) : Img :=
  let y := cellY tm ph spacing (rIdx : ℤ) - spacing.fdiv 2
  paint s (fun Y X => onHSeg lm (lm + cols * pw + (cols - 1) * spacing) y Y X)
    (fun _ _ => (200, 200, 200))

/-- The corner tick marks of one placed photo. -/
def tickStep (lm tm pw ph spacing : ℤ) (s : Img) (rc : ℤ × ℤ) : Img :=
  paint s (fun Y X =>
      cornerTicks (cellX lm pw spacing rc.2) (cellY tm ph spacing rc.1)
        pw ph Y X)
    (fun _ _ => (180, 180, 180))

/-- Place the chosen-orientation photo on the sheet: the paste/outline loop,
then (when guides are drawn) the vertical and horizontal cut lines and the
corner ticks, exactly in source order. -/
def packSheet (photo' : Img) (sw sh lm tm pw ph spacing cols rows copies : ℤ)
    (drawGuides : Bool) : Img :=
  let sheet0 : Img := { h := sh, w := sw, pix := fun _ _ => (255, 255, 255) }
  let cells := placedCells rows cols copies
  let s1 := cells.foldl (pasteStep photo' lm tm pw ph spacing drawGuides) sheet0
  if drawGuides then
    let s2 := (List.range' 1 (cols - 1).toNat).foldl
      (vlineStep lm tm pw ph spacing rows) s1
    let s3 := (List.range' 1 (rows - 1).toNat).foldl
      (hlineStep lm tm pw ph spacing cols) s2
    cells.foldl (tickStep lm tm pw ph spacing) s3
  else s1

/-- The orientation decision of `build_print_sheet` for a given photo and
sheet configuration. -/
def chosenRot (photo : Img) (layout : LayoutSpec) (dpi : ℤ)
    (margin_in spacing_in : ℚ) : Bool :=
  sheetRotates (availW layout dpi margin_in) (availH layout dpi margin_in)
    (spacingPx spacing_in dpi) photo.w photo.h

/-- The photo actually pasted (rotated when the rotated orientation wins). -/
def chosenPhoto (photo : Img) (layout : LayoutSpec) (dpi : ℤ)
    (margin_in spacing_in : ℚ) : Img :=
  if chosenRot photo layout dpi margin_in spacing_in then rotate90 photo
  else photo

/-- Cell width after the orientation choice. -/
def chosenPW (photo : Img) (layout : LayoutSpec) (dpi : ℤ)
    (margin_in spacing_in : ℚ) : ℤ :=
  if chosenRot photo layout dpi margin_in spacing_in then photo.h else photo.w

/-- Cell height after the orientation choice. -/
def chosenPH (photo : Img) (layout : LayoutSpec) (dpi : ℤ)
    (margin_in spacing_in : ℚ) : ℤ :=
  if chosenRot photo layout dpi margin_in spacing_in then photo.w else photo.h

/-- Column count after the orientation choice. -/
def chosenCols (photo : Img) (layout : LayoutSpec) (dpi : ℤ)
    (margin_in spacing_in : ℚ) : ℤ :=
  fitCount (availW layout dpi margin_in) (spacingPx spacing_in dpi)
    (chosenPW photo layout dpi margin_in spacing_in)

/-- Row count after the orientation choice. -/
def chosenRows (photo : Img) (layout : LayoutSpec) (dpi : ℤ)
    (margin_in spacing_in : ℚ) : ℤ :=
  fitCount (availH layout dpi margin_in) (spacingPx spacing_in dpi)
    (chosenPH photo layout dpi margin_in spacing_in)

/-- The centred left margin of the placed grid. -/
def chosenLM (photo : Img) (layout : LayoutSpec) (dpi : ℤ)
    (margin_in spacing_in : ℚ) : ℤ :=
  centeredMargin (marginPx margin_in dpi) (availW layout dpi margin_in)
    (chosenCols photo layout dpi margin_in spacing_in)
    (chosenPW photo layout dpi margin_in spacing_in) (spacingPx spacing_in dpi)

/-- The centred top margin of the placed grid. -/
def chosenTM (photo : Img) (layout : LayoutSpec) (dpi : ℤ)
    (margin_in spacing_in : ℚ) : ℤ :=
  centeredMargin (marginPx margin_in dpi) (availH layout dpi margin_in)
    (chosenRows photo layout dpi margin_in spacing_in)
    (chosenPH photo layout dpi margin_in spacing_in) (spacingPx spacing_in dpi)

/-- `build_print_sheet` from the source. -/
def buildPrintSheet (photo : Img) (layout : LayoutSpec) (dpi : ℤ)
    (margin_in spacing_in : ℚ) (copies : ℤ) (drawGuides : Bool) : Img :=
  packSheet (chosenPhoto photo layout dpi margin_in spacing_in)
    (sheetW layout dpi) (sheetH layout dpi)
    (chosenLM photo layout dpi margin_in spacing_in)
    (chosenTM photo layout dpi margin_in spacing_in)
    (chosenPW photo layout dpi margin_in spacing_in)
    (chosenPH photo layout dpi margin_in spacing_in)
    (spacingPx spacing_in dpi)
    (chosenCols photo layout dpi margin_in spacing_in)
    (chosenRows photo layout dpi margin_in spacing_in) copies drawGuides

/-- A pixel grid in the segmentation part, with `ℕ` dimensions (row, column
indexing as in NumPy). -/
structure Img8 where
  h : ℕ
  w : ℕ
  pix : ℕ → ℕ → Px

/-- A single-channel binary mask (`0`/`255` in the source, `Bool` here),
same grid shape as its source image. -/
structure GMask where
  h : ℕ
  w : ℕ
  pix : ℕ → ℕ → Bool

/-- NumPy slice-index normalisation for a `ℕ`-length axis. -/
def npIdx8 (n : ℕ) (i : ℤ) : ℕ :=
  (max 0 (min (if i < 0 then i + n else i) (n : ℤ))).toNat

/-- The pixels of the row band `img[a:b, :]`, flattened. -/
def rowBand (img : Img8) (a b : ℤ) : List Px :=
  (List.range (npIdx8 img.h b - npIdx8 img.h a)).flatMap fun dy =>
    (List.range img.w).map fun x => img.pix (npIdx8 img.h a + dy) x

/-- The pixels of the column band `img[:, a:b]`, flattened. -/
def colBand (img : Img8) (a b : ℤ) : List Px :=
  (List.range img.h).flatMap fun y =>
    (List.range (npIdx8 img.w b - npIdx8 img.w a)).map fun dx =>
      img.pix y (npIdx8 img.w a + dx)

/-- `_border_stats`: the concatenated 5-pixel bands around the four edges. -/
def borderSamples (img : Img8) : List Px :=
  rowBand img 0 5 ++ rowBand img ((img.h : ℤ) - 5) img.h ++
  colBand img 0 5 ++ colBand img ((img.w : ℤ) - 5) img.w

/-- Componentwise sum of a pixel list. -/
def sumPx (l : List Px) : ℤ × ℤ × ℤ :=
  l.foldl (fun a p => (a.1 + p.1, a.2.1 + p.2.1, a.2.2 + p.2.2)) (0, 0, 0)

/-- `np.mean(border, axis=0)`: the mean border colour, exact. -/
def borderMean (img : Img8) : ℚ × ℚ × ℚ :=
  let s := sumPx (borderSamples img)
  let n : ℚ := (borderSamples img).length
  ((s.1 : ℚ) / n, (s.2.1 : ℚ) / n, (s.2.2 : ℚ) / n)

/-- `float(np.mean(mean))`: mean brightness of the border. -/
def meanBrightness (img : Img8) : ℚ :=
  let m := borderMean img
  (m.1 + m.2.1 + m.2.2) / 3

/-- Foreground-pixel fraction of a mask, `float(np.mean(mask > 0))`
(`0/0 = 0` for an empty mask, where NumPy's `nan` also fails every
comparison used by the source). -/
def fgRatio (m : GMask) : ℚ :=
  let c := ((List.range m.h).map fun y =>
    ((List.range m.w).filter fun x => m.pix y x).length).sum
  (c : ℚ) / ((m.h : ℚ) * (m.w : ℚ))

/-- The external numeric capabilities used by the segmentation code:
OpenCV filters and solvers, the MediaPipe segmenter, and the two NumPy
reductions whose values are irrational square roots
(`np.std`, `np.linalg.norm`).  Each image-to-image capability is given as a
pixel-function transformer; the wrappers below preserve the grid shape,
exactly as the corresponding library calls do. -/
structure Env where
  /-- `float(np.mean(np.std(border, axis=0)))`. -/
  borderStdMean : Img8 → ℚ
  /-- `np.linalg.norm(pixel - mean)`: Euclidean distance of a pixel to the
  border mean colour. -/
  colorDist : Px → ℚ × ℚ × ℚ → ℚ
  /-- `cv2.connectedComponents`: label count and the label grid. -/
  connectedComponents : GMask → ℕ × (ℕ → ℕ → ℕ)
  /-- `cv2.medianBlur(mask, 5)` on a binary mask. -/
  medianBlur5 : GMask → ℕ → ℕ → Bool
  /-- `cv2.GaussianBlur(probmap, (7, 7), 0)`. -/
  gaussBlur7 : (ℕ → ℕ → ℚ) → ℕ → ℕ → ℚ
  /-- The MediaPipe selfie segmenter: `none` when the module is missing or
  its result has no segmentation mask. -/
  segmenter : Img8 → Option (ℕ → ℕ → ℚ)
  /-- `cv2.cvtColor(img, cv2.COLOR_BGR2HSV)`. -/
  cvtHSV : Img8 → ℕ → ℕ → Px
  /-- `cv2.dilate` with an ellipse kernel: kernel size, iterations, mask. -/
  dilate : ℕ → ℕ → GMask → ℕ → ℕ → Bool
  /-- `cv2.erode` with an ellipse kernel. -/
  erode : ℕ → ℕ → GMask → ℕ → ℕ → Bool
  /-- `cv2.grabCut` seeded with a trimap of GC labels; `none` models the
  `except Exception` path. -/
  grabCut : Img8 → (ℕ → ℕ → ℕ) → Option (ℕ → ℕ → ℕ)
  /-- `cv2.GaussianBlur(mask, (11, 11), 0).astype(np.float32) / 255`. -/
  gaussBlurMask : GMask → ℕ → ℕ → ℚ

/-- Shape-preserving wrapper for `cv2.medianBlur(mask, 5)`. -/
def medB (e : Env) (m : GMask) : GMask := ⟨m.h, m.w, e.medianBlur5 m⟩

/-- Shape-preserving wrapper for `cv2.dilate`. -/
def dilateM (e : Env) (k it : ℕ) (m : GMask) : GMask := ⟨m.h, m.w, e.dilate k it m⟩

/-- Shape-preserving wrapper for `cv2.erode`. -/
def erodeM (e : Env) (k it : ℕ) (m : GMask) : GMask := ⟨m.h, m.w, e.erode k it m⟩

/-- `_white_key_mask` from the source: applicable only when the border is
bright and uniform; keys out pixels close to the border mean. -/
def whiteKeyMask (e : Env) (img : Img8) (bgTolerance : ℚ) : Option GMask :=
  if meanBrightness img < 180 - max 0 (bgTolerance - 25) ∨
      e.borderStdMean img > 40 then none
  else
    some (medB e ⟨img.h, img.w, fun y x =>
      ! decide (e.colorDist (img.pix y x) (borderMean img) < max 10 bgTolerance)⟩)

/-- `_border_color_key_mask` from the source: key out the border colour and
keep only background components connected to the image border. -/
def borderColorKeyMask (e : Env) (img : Img8) (bgTolerance : ℚ) : Option GMask :=
  let meanStd := e.borderStdMean img
  if meanStd > 45 then none
  else
    let thresh := max 10 bgTolerance + 3/2 * meanStd
    let bgCand : GMask := ⟨img.h, img.w, fun y x =>
      decide (e.colorDist (img.pix y x) (borderMean img) < thresh)⟩
    let cc := e.connectedComponents bgCand
    if cc.1 ≤ 1 then none
    else
      let labels := cc.2
      let isBorderLabel : ℕ → Bool := fun l =>
        ((List.range img.w).any fun x =>
          labels 0 x == l || labels (img.h - 1) x == l) ||
        ((List.range img.h).any fun y =>
          labels y 0 == l || labels y (img.w - 1) == l)
      let hasBorderLabel : Bool :=
        ((List.range img.w).any fun x =>
          labels 0 x != 0 || labels (img.h - 1) x != 0) ||
        ((List.range img.h).any fun y =>
          labels y 0 != 0 || labels y (img.w - 1) != 0)
      if !hasBorderLabel then none
      else
        some (medB e ⟨img.h, img.w, fun y x =>
          ! (labels y x != 0 && isBorderLabel (labels y x))⟩)

/-- `_white_bg_heuristic`: HSV threshold on bright, low-saturation pixels. -/
def whiteBgHeuristic (e : Env) (img : Img8) (bgTolerance : ℚ) : GMask :=
  let vThresh := pyInt (max 180 (255 - bgTolerance * 3/2))
  let sThresh := pyInt (min 60 (max 20 bgTolerance))
  medB e ⟨img.h, img.w, fun y x =>
    let hsv := e.cvtHSV img y x
    ! (decide (hsv.2.2 > vThresh) && decide (hsv.2.1 < sThresh))⟩

/-- `_foreground_mask_hsv`: skin-colour range threshold, dilated then
eroded. -/
def foregroundMaskHSV (e : Env) (img : Img8) : GMask :=
  let raw : GMask := ⟨img.h, img.w, fun y x =>
    let hsv := e.cvtHSV img y x
    decide (0 ≤ hsv.1) && decide (hsv.1 ≤ 20) &&
    decide (20 ≤ hsv.2.1) && decide (hsv.2.1 ≤ 255) &&
    decide (70 ≤ hsv.2.2) && decide (hsv.2.2 ≤ 255)⟩
  erodeM e 5 1 (dilateM e 5 2 raw)

/-- The neural mask after Gaussian smoothing, probability thresholding and
median smoothing (`none` when the segmenter is unavailable). -/
def neuralMask (e : Env) (img : Img8) (threshold : ℚ) : Option GMask :=
  (e.segmenter img).map fun probs =>
    medB e ⟨img.h, img.w, fun y x => decide (e.gaussBlur7 probs y x > threshold)⟩

/-- Count of foreground pixels of a mask inside the half-open box
`[y0, y1) × [x0, x1)` (all bounds already nonnegative at call sites). -/
def regionCount (m : GMask) (y0 y1 x0 x1 : ℤ) : ℤ :=
  (((List.range ((y1 - y0).toNat)).map fun dy =>
    ((List.range ((x1 - x0).toNat)).filter fun dx =>
      m.pix (y0.toNat + dy) (x0.toNat + dx)).length).sum : ℕ)

/-- The face-anchored graph-cut strategy (source lines inside the first
`if face_bbox is not None` block): trimap construction, `cv2.grabCut`,
inversion check over the sure-foreground box, bounding-box override and a
final dilation.  Returns `none` on the `except Exception` path. -/
def grabCutMask (e : Env) (img : Img8) (x y w h : ℤ) (ex ey : ℚ) :
    Option GMask :=
  let hImg := (img.h : ℤ)
  let wImg := (img.w : ℤ)
  let padX := pyInt ((w : ℚ) * ex)
  let padY := pyInt ((h : ℚ) * ey)
  let x0 := max 0 (x - padX)
  let y0 := max 0 (y - padY)
  let x1 := min (wImg - 1) (x + w + padX)
  let y1 := min (hImg - 1) (y + h + padY)
  let cx0 := max 0 (x + pyInt ((w : ℚ) * 2/10))
  let cy0 := max 0 (y + pyInt ((h : ℚ) * 2/10))
  let cx1 := min (wImg - 1) (x + pyInt ((w : ℚ) * 8/10))
  let cy1 := min (hImg - 1) (y + pyInt ((h : ℚ) * 8/10))
  let trimap : ℕ → ℕ → ℕ := fun Y X =>
    if cy0 ≤ (Y : ℤ) ∧ (Y : ℤ) < cy1 ∧ cx0 ≤ (X : ℤ) ∧ (X : ℤ) < cx1 then 1
    else if y0 ≤ (Y : ℤ) ∧ (Y : ℤ) < y1 ∧ x0 ≤ (X : ℤ) ∧ (X : ℤ) < x1 then 3
    else 0
  (e.grabCut img trimap).map fun lab =>
    let fg0 : GMask := ⟨img.h, img.w, fun Y X => lab Y X == 1 || lab Y X == 3⟩
    let fg1 := medB e fg0
    let size := max 0 (cy1 - cy0) * max 0 (cx1 - cx0)
    let cnt := regionCount fg1 cy0 cy1 cx0 cx1
    let fg2 : GMask :=
      if 0 < size ∧ 255 * cnt < 128 * size then
        ⟨fg1.h, fg1.w, fun Y X => ! fg1.pix Y X⟩
      else fg1
    let fg3 : GMask := ⟨fg2.h, fg2.w, fun Y X =>
      if y0 ≤ (Y : ℤ) ∧ (Y : ℤ) < y1 ∧ x0 ≤ (X : ℤ) ∧ (X : ℤ) < x1 then true
      else fg2.pix Y X⟩
    dilateM e 7 1 fg3

/-- The expanded-bounding-box rectangle fallback (second
`if face_bbox is not None` block). -/
def bboxRectMask (img : Img8) (x y w h : ℤ) (ex ey : ℚ) : GMask :=
  let hImg := (img.h : ℤ)
  let wImg := (img.w : ℤ)
  let padX := pyInt ((w : ℚ) * max (1/10) ex)
  let padY := pyInt ((h : ℚ) * max (2/10) ey)
  let x0 := max 0 (x - padX)
  let y0 := max 0 (y - padY)
  let x1 := min (wImg - 1) (x + w + padX)
  let y1 := min (hImg - 1) (y + h + padY)
  ⟨img.h, img.w, fun Y X =>
    decide (y0 ≤ (Y : ℤ) ∧ (Y : ℤ) < y1 ∧ x0 ≤ (X : ℤ) ∧ (X : ℤ) < x1)⟩

/-- The strategies tried after the neural pass is unavailable or rejected:
graph-cut (with exception fallback), the bounding-box rectangle, and the
skin-colour mask. -/
def afterNeural (e : Env) (img : Img8) (faceBbox : Option (ℤ × ℤ × ℤ × ℤ))
    (ex ey : ℚ) : GMask :=
  match faceBbox with
  | some (x, y, w, h) =>
      match grabCutMask e img x y w h ex ey with
      | some m => m
      | none => bboxRectMask img x y w h ex ey
  | none => foregroundMaskHSV e img

/-- `get_foreground_mask` from the source: the fixed-priority cascade.
(`face_protect` is accepted and unused, as in the source.) -/
def getForegroundMask (e : Env) (img : Img8) (threshold : ℚ)
    (faceBbox : Option (ℤ × ℤ × ℤ × ℤ)) (ex ey : ℚ)
    (preferWhiteKey : Bool) (bgTolerance faceProtect : ℚ) : GMask :=
  match borderColorKeyMask e img bgTolerance with
  | some m => m
  | none =>
    match whiteKeyMask e img bgTolerance with
    | some m => m
    | none =>
      if preferWhiteKey then whiteBgHeuristic e img bgTolerance
      else
        match neuralMask e img threshold with
        | some m =>
            if 2/100 < fgRatio m ∧ fgRatio m < 98/100 then m
            else afterNeural e img faceBbox ex ey
        | none => afterNeural e img faceBbox ex ey

/-- The mask `replace_background` composites with, before the face-ellipse
protection: the cascade's mask, replaced by a fresh white-key mask when it
is almost all foreground (`> 0.98`) and the white-key strategy applies. -/
def chosenMask (e : Env) (img : Img8) (threshold : ℚ)
    (faceBbox : Option (ℤ × ℤ × ℤ × ℤ)) (ex ey bgTolerance faceProtect : ℚ) :
    GMask :=
  let fg := getForegroundMask e img threshold faceBbox ex ey true
    bgTolerance faceProtect
  if fgRatio fg > 98/100 then
    match whiteKeyMask e img bgTolerance with
    | some wk => wk
    | none => fg
  else fg

/-- Membership in the filled ellipse `cv2.ellipse(center, axes, ..., -1)`. -/
def inEllipse (cx cy a b Y X : ℤ) : Bool :=
  decide ((X - cx) ^ 2 * b ^ 2 + (Y - cy) ^ 2 * a ^ 2 ≤ a ^ 2 * b ^ 2)

/-- Alpha blend of one channel:
`image * alpha + background * (1 - alpha)`, truncated to 8 bit. -/
def blend1 (c bgc : ℤ) (alpha : ℚ) : ℤ :=
  pyInt ((c : ℚ) * alpha + (bgc : ℚ) * (1 - alpha))

/-- `replace_background` from the source: cascade mask (white-key
corrective recompute), face-ellipse protection, erosion, Gaussian
feathering, and the alpha composite over the (RGB-to-BGR reversed)
background colour. -/
def replaceBackground (e : Env) (img : Img8) (backgroundRgb : Px)
    (threshold : ℚ) (faceBbox : Option (ℤ × ℤ × ℤ × ℤ))
    (ex ey bgTolerance faceProtect : ℚ) : Img8 :=
  let fg0 := chosenMask e img threshold faceBbox ex ey bgTolerance faceProtect
  let fg1 : GMask :=
    match faceBbox with
    | some (x, y, w, h) =>
        let cx := x + w.fdiv 2
        let cy := y + h.fdiv 2
        let a := pyInt ((w : ℚ) * faceProtect)
        let b := pyInt ((h : ℚ) * (faceProtect + 15/100))
        ⟨fg0.h, fg0.w, fun Y X => fg0.pix Y X || inEllipse cx cy a b Y X⟩
    | none => fg0
  let fg2 := erodeM e 3 1 fg1
  let alpha := e.gaussBlurMask fg2
  let bgr : Px := (backgroundRgb.2.2, backgroundRgb.2.1, backgroundRgb.1)
  ⟨img.h, img.w, fun Y X =>
    (blend1 (img.pix Y X).1 bgr.1 (alpha Y X),
     blend1 (img.pix Y X).2.1 bgr.2.1 (alpha Y X),
     blend1 (img.pix Y X).2.2 bgr.2.2 (alpha Y X))⟩

/-- Area `w * h` of a candidate face box. -/
def faceArea (f : ℤ × ℤ × ℤ × ℤ) : ℤ := f.2.2.1 * f.2.2.2

/-- Python's `max(faces, key=area)`: the first box of maximal area. -/
def pickLargest : List (ℤ × ℤ × ℤ × ℤ) → Option (ℤ × ℤ × ℤ × ℤ)
  | [] => none
  | f :: fs => some (fs.foldl (fun best g =>
      if faceArea g > faceArea best then g else best) f)

/-- `detect_face` from the source, over the two detector passes (the
external cascade classifier's outputs): the second, more lenient pass is
consulted only when the first finds nothing; `none` models the
`RuntimeError` raised when both passes are empty.  The eye point is
`(x + w // 2, y + int(h * 0.35))`. -/
def detectFace (pass1 pass2 : List (ℤ × ℤ × ℤ × ℤ)) :
    Option ((ℤ × ℤ × ℤ × ℤ) × (ℤ × ℤ)) :=
  let faces := if pass1.isEmpty then pass2 else pass1
  match pickLargest faces with
  | none => none
  | some (x, y, w, h) =>
      some ((x, y, w, h), (x + w.fdiv 2, y + pyInt ((h : ℚ) * 35/100)))

/-! ## Helper lemmas -/

theorem npIdx_eq (n i : ℤ) (h0 : 0 ≤ i) (hn : i ≤ n) : npIdx n i = i := by
  unfold npIdx
  rw [if_neg (by omega)]
  omega

theorem npSlice2d_dims (img : Img) (top bottom left right : ℤ)
    (h1 : 0 ≤ top) (h2 : top ≤ bottom) (h3 : bottom ≤ img.h)
    (h4 : 0 ≤ left) (h5 : left ≤ right) (h6 : right ≤ img.w) :
    (npSlice2d img top bottom left right).h = bottom - top ∧
    (npSlice2d img top bottom left right).w = right - left := by
  unfold npSlice2d
  rw [npIdx_eq img.h top h1 (by omega), npIdx_eq img.h bottom (by omega) h3,
    npIdx_eq img.w left h4 (by omega), npIdx_eq img.w right (by omega) h6]
  constructor <;> simp <;> omega

theorem cropWithPadding_dims (img : Img) (left top width height : ℤ) (bg : Px)
    (hw : 0 ≤ width) (hh : 0 ≤ height) :
    (cropWithPadding img left top width height bg).h = height ∧
    (cropWithPadding img left top width height bg).w = width := by
  unfold cropWithPadding
  dsimp only
  split
  · have h := npSlice2d_dims
      (copyMakeBorder img (max 0 (-top)) (max 0 (top + height - img.h))
        (max 0 (-left)) (max 0 (left + width - img.w)) bg)
      (top + max 0 (-top)) (top + max 0 (-top) + height)
      (left + max 0 (-left)) (left + max 0 (-left) + width)
      (by omega) (by omega) (by simp only [copyMakeBorder]; omega)
      (by omega) (by omega) (by simp only [copyMakeBorder]; omega)
    exact ⟨by rw [h.1]; omega, by rw [h.2]; omega⟩
  · next hC =>
    have hc1 : max 0 (-left) = 0 := by omega
    have hc2 : max 0 (-top) = 0 := by omega
    have hc3 : max 0 (left + width - img.w) = 0 := by
      by_contra h
      exact hC (Or.inr (Or.inr (Or.inl h)))
    have hc4 : max 0 (top + height - img.h) = 0 := by
      by_contra h
      exact hC (Or.inr (Or.inr (Or.inr h)))
    have h := npSlice2d_dims img top (top + height) left (left + width)
      (by omega) (by omega) (by omega) (by omega) (by omega) (by omega)
    exact ⟨by rw [h.1]; omega, by rw [h.2]; omega⟩

theorem cropToSpecCropped_dims (interp : Interp) (img : Img)
    (bbox : ℤ × ℤ × ℤ × ℤ) (eye : ℤ × ℤ) (spec : PhotoSpec) (dpi : ℤ)
    (bg : Option Px)
    (hW : 0 ≤ (computeOutputSizePx spec dpi).1)
    (hH : 0 ≤ (computeOutputSizePx spec dpi).2) :
    (cropToSpecCropped interp img bbox eye spec dpi bg).h =
      (computeOutputSizePx spec dpi).2 ∧
    (cropToSpecCropped interp img bbox eye spec dpi bg).w =
      (computeOutputSizePx spec dpi).1 := by
  unfold cropToSpecCropped
  exact cropWithPadding_dims _ _ _ _ _ _ hW hH

theorem cropToSpec_eq_cropped (interp : Interp) (img : Img)
    (bbox : ℤ × ℤ × ℤ × ℤ) (eye : ℤ × ℤ) (spec : PhotoSpec) (dpi : ℤ)
    (bg : Option Px)
    (hW : 0 ≤ (computeOutputSizePx spec dpi).1)
    (hH : 0 ≤ (computeOutputSizePx spec dpi).2) :
    cropToSpec interp img bbox eye spec dpi bg =
      cropToSpecCropped interp img bbox eye spec dpi bg := by
  unfold cropToSpec
  dsimp only
  have h := cropToSpecCropped_dims interp img bbox eye spec dpi bg hW hH
  rw [h.1, h.2, if_neg (by norm_num)]

/-! ## C1 -/

/-- C1: for every input image, face box with `h ≥ 1`, eye point, spec and
dpi whose rounded output dimensions are at least 1, the grid returned by
`crop_to_spec` has exactly `round(spec.width_in*dpi)` columns and
`round(spec.height_in*dpi)` rows. -/
theorem c1_crop_to_spec_exact_dims (interp : Interp) (img : Img)
    (bbox : ℤ × ℤ × ℤ × ℤ) (eye : ℤ × ℤ) (spec : PhotoSpec) (dpi : ℤ)
    (bg : Option Px)
    (hface : 1 ≤ bbox.2.2.2)
    (hW : 1 ≤ pyRound (spec.width_in * dpi))
    (hH : 1 ≤ pyRound (spec.height_in * dpi)) :
    (cropToSpec interp img bbox eye spec dpi bg).w =
      pyRound (spec.width_in * dpi) ∧
    (cropToSpec interp img bbox eye spec dpi bg).h =
      pyRound (spec.height_in * dpi) := by
  have h0W : 0 ≤ (computeOutputSizePx spec dpi).1 := by
    simpa [computeOutputSizePx] using le_trans (by omega) hW
  have h0H : 0 ≤ (computeOutputSizePx spec dpi).2 := by
    simpa [computeOutputSizePx] using le_trans (by omega) hH
  rw [cropToSpec_eq_cropped interp img bbox eye spec dpi bg h0W h0H]
  have h := cropToSpecCropped_dims interp img bbox eye spec dpi bg h0W h0H
  exact ⟨h.2, h.1⟩

/-- Witness for C1 at a concrete input: a 10×10 image, face box of height
5, spec 1in × 1in at 30 dpi. -/
theorem c1_crop_to_spec_exact_dims_witness :
    (1 : ℤ) ≤ (2, 2, 5, (5 : ℤ)).2.2.2 ∧
    1 ≤ pyRound ((1 : ℚ) * (30 : ℤ)) ∧
    ((cropToSpec (fun _ _ _ _ => (0, 0, 0))
        ⟨10, 10, fun _ _ => (7, 7, 7)⟩ (2, 2, 5, 5) (4, 4)
        ⟨1, 1, 1/2, 1/2, (255, 255, 255)⟩ 30 none).w =
      pyRound ((1 : ℚ) * (30 : ℤ)) ∧
    (cropToSpec (fun _ _ _ _ => (0, 0, 0))
        ⟨10, 10, fun _ _ => (7, 7, 7)⟩ (2, 2, 5, 5) (4, 4)
        ⟨1, 1, 1/2, 1/2, (255, 255, 255)⟩ 30 none).h =
      pyRound ((1 : ℚ) * (30 : ℤ))) :=
  ⟨by decide, of_decide_eq_true (by with_unfolding_all rfl),
    c1_crop_to_spec_exact_dims (fun _ _ _ _ => (0, 0, 0))
      ⟨10, 10, fun _ _ => (7, 7, 7)⟩ (2, 2, 5, 5) (4, 4)
      ⟨1, 1, 1/2, 1/2, (255, 255, 255)⟩ 30 none
      (by decide) (of_decide_eq_true (by with_unfolding_all rfl))
      (of_decide_eq_true (by with_unfolding_all rfl))⟩

/-! ## C9 -/

/-- C9: `crop_with_padding` always yields a full-sized `height × width`
slice for arbitrary integer `left`/`top` (including fully out-of-bounds
rectangles), it only ever reads coordinates inside the padded image, and
consequently the aspect-correction resize branch of `crop_to_spec` is
never taken. -/
theorem c9_crop_with_padding_safe (img : Img) (left top width height : ℤ)
    (bg : Px) (interp : Interp) (img2 : Img) (bbox : ℤ × ℤ × ℤ × ℤ)
    (eye : ℤ × ℤ) (spec : PhotoSpec) (dpi : ℤ) (bg2 : Option Px)
    (hw : 0 ≤ width) (hh : 0 ≤ height)
    (hW : 0 ≤ (computeOutputSizePx spec dpi).1)
    (hH : 0 ≤ (computeOutputSizePx spec dpi).2) :
    ((cropWithPadding img left top width height bg).h = height ∧
     (cropWithPadding img left top width height bg).w = width) ∧
    (∀ Y X, 0 ≤ Y → Y < height → 0 ≤ X → X < width →
      0 ≤ top + max 0 (-top) + Y ∧
      top + max 0 (-top) + Y <
        (copyMakeBorder img (max 0 (-top)) (max 0 (top + height - img.h))
          (max 0 (-left)) (max 0 (left + width - img.w)) bg).h ∧
      0 ≤ left + max 0 (-left) + X ∧
      left + max 0 (-left) + X <
        (copyMakeBorder img (max 0 (-top)) (max 0 (top + height - img.h))
          (max 0 (-left)) (max 0 (left + width - img.w)) bg).w) ∧
    cropToSpec interp img2 bbox eye spec dpi bg2 =
      cropToSpecCropped interp img2 bbox eye spec dpi bg2 := by
  refine ⟨cropWithPadding_dims img left top width height bg hw hh,
    fun Y X hY0 hY1 hX0 hX1 => ?_,
    cropToSpec_eq_cropped interp img2 bbox eye spec dpi bg2 hW hH⟩
  simp only [copyMakeBorder]
  omega

/-- Witness for C9 at a concrete input: a fully out-of-bounds crop
rectangle (`left = -20`, `top = 50`) of a 4×4 image. -/
theorem c9_crop_with_padding_safe_witness :
    (0 : ℤ) ≤ 7 ∧
    (((cropWithPadding ⟨4, 4, fun _ _ => (1, 1, 1)⟩ (-20) 50 7 9
        (0, 0, 0)).h = 9 ∧
      (cropWithPadding ⟨4, 4, fun _ _ => (1, 1, 1)⟩ (-20) 50 7 9
        (0, 0, 0)).w = 7) ∧
     (∀ Y X, 0 ≤ Y → Y < 9 → 0 ≤ X → X < 7 →
       0 ≤ 50 + max 0 (-(50 : ℤ)) + Y ∧
       50 + max 0 (-(50 : ℤ)) + Y <
         (copyMakeBorder ⟨4, 4, fun _ _ => (1, 1, 1)⟩ (max 0 (-(50 : ℤ)))
           (max 0 (50 + 9 - (4 : ℤ))) (max 0 (-(-20 : ℤ)))
           (max 0 (-20 + 7 - (4 : ℤ))) (0, 0, 0)).h ∧
       0 ≤ -20 + max 0 (-(-20 : ℤ)) + X ∧
       -20 + max 0 (-(-20 : ℤ)) + X <
         (copyMakeBorder ⟨4, 4, fun _ _ => (1, 1, 1)⟩ (max 0 (-(50 : ℤ)))
           (max 0 (50 + 9 - (4 : ℤ))) (max 0 (-(-20 : ℤ)))
           (max 0 (-20 + 7 - (4 : ℤ))) (0, 0, 0)).w) ∧
     cropToSpec (fun _ _ _ _ => (0, 0, 0)) ⟨6, 6, fun _ _ => (2, 2, 2)⟩
         (1, 1, 3, 3) (2, 2) ⟨1, 1, 7/10, 1/2, (255, 255, 255)⟩ 20 none =
       cropToSpecCropped (fun _ _ _ _ => (0, 0, 0)) ⟨6, 6, fun _ _ => (2, 2, 2)⟩
         (1, 1, 3, 3) (2, 2) ⟨1, 1, 7/10, 1/2, (255, 255, 255)⟩ 20 none) :=
  ⟨by decide,
    c9_crop_with_padding_safe ⟨4, 4, fun _ _ => (1, 1, 1)⟩ (-20) 50 7 9
      (0, 0, 0) (fun _ _ _ _ => (0, 0, 0)) ⟨6, 6, fun _ _ => (2, 2, 2)⟩
      (1, 1, 3, 3) (2, 2) ⟨1, 1, 7/10, 1/2, (255, 255, 255)⟩ 20 none
      (by decide) (by decide) (of_decide_eq_true (by with_unfolding_all rfl))
      (of_decide_eq_true (by with_unfolding_all rfl))⟩

/-! ## C8 -/

/-- C8: `detect_face` fails if and only if both detection passes find no
candidate; whenever at least one candidate is found it returns a box and
eye point. -/
theorem c8_detect_face_error_iff (pass1 pass2 : List (ℤ × ℤ × ℤ × ℤ)) :
    detectFace pass1 pass2 = none ↔ pass1 = [] ∧ pass2 = [] := by
  cases pass1 <;> cases pass2 <;> simp [detectFace, pickLargest]

/-! ## C2 -/

/-- C2 counterexample: with a 50-pixel available width, zero spacing and a
100-pixel photo cell, the source computes `max(1, 50 // 100) = 1` columns
while the claim's formula `floor((availableW + spacing)/(cellW + spacing))`
gives 0. -/
theorem c2_counterexample :
    fitCount (availW ⟨1/2, 1/2⟩ 100 0) (spacingPx 0 100) 100 = 1 ∧
    (availW ⟨1/2, 1/2⟩ 100 0 + spacingPx 0 100).fdiv (100 + spacingPx 0 100)
      = 0 ∧ (1 : ℤ) ≠ 0 :=
  ⟨of_decide_eq_true (by with_unfolding_all rfl),
   of_decide_eq_true (by with_unfolding_all rfl), by decide⟩

/-- C2 amended: in both orientations the column count is
`max(1, floor((availableW + spacing)/(cellW + spacing)))` and the row
count is `max(1, floor((availableH + spacing)/(cellH + spacing)))` —
the floor-division count is clamped below by 1. -/
theorem c2_amended_fit_counts (layout : LayoutSpec) (dpi : ℤ)
    (margin_in spacing_in : ℚ) (pw ph : ℤ) :
    fitCount (availW layout dpi margin_in) (spacingPx spacing_in dpi) pw =
      max 1 ((availW layout dpi margin_in + spacingPx spacing_in dpi).fdiv
        (pw + spacingPx spacing_in dpi)) ∧
    fitCount (availH layout dpi margin_in) (spacingPx spacing_in dpi) ph =
      max 1 ((availH layout dpi margin_in + spacingPx spacing_in dpi).fdiv
        (ph + spacingPx spacing_in dpi)) ∧
    fitCount (availW layout dpi margin_in) (spacingPx spacing_in dpi) ph =
      max 1 ((availW layout dpi margin_in + spacingPx spacing_in dpi).fdiv
        (ph + spacingPx spacing_in dpi)) ∧
    fitCount (availH layout dpi margin_in) (spacingPx spacing_in dpi) pw =
      max 1 ((availH layout dpi margin_in + spacingPx spacing_in dpi).fdiv
        (pw + spacingPx spacing_in dpi)) :=
  ⟨rfl, rfl, rfl, rfl⟩

/-! ## C4 -/

/-- C4: `build_print_sheet` rotates the photo if and only if the rotated
orientation's total cell count strictly exceeds the original
orientation's total; equal totals keep the original orientation. -/
theorem c4_rotation_iff_strictly_more (photo : Img) (layout : LayoutSpec)
    (dpi : ℤ) (margin_in spacing_in : ℚ) :
    chosenRot photo layout dpi margin_in spacing_in = true ↔
      totalRot (availW layout dpi margin_in) (availH layout dpi margin_in)
          (spacingPx spacing_in dpi) photo.w photo.h >
        totalOrig (availW layout dpi margin_in) (availH layout dpi margin_in)
          (spacingPx spacing_in dpi) photo.w photo.h := by
  simp [chosenRot, sheetRotates]

/-! ## C5 -/

/-- C5: the neural strategy's thresholded mask is returned exactly when its
foreground fraction lies strictly inside `(0.02, 0.98)`; otherwise it is
discarded and the cascade falls through to the next strategy. -/
theorem c5_neural_gate (e : Env) (img : Img8) (threshold : ℚ)
    (faceBbox : Option (ℤ × ℤ × ℤ × ℤ)) (ex ey bgTol fp : ℚ) (m : GMask)
    (h1 : borderColorKeyMask e img bgTol = none)
    (h2 : whiteKeyMask e img bgTol = none)
    (h3 : neuralMask e img threshold = some m) :
    getForegroundMask e img threshold faceBbox ex ey false bgTol fp =
      (if 2/100 < fgRatio m ∧ fgRatio m < 98/100 then m
       else afterNeural e img faceBbox ex ey) := by
  unfold getForegroundMask
  rw [h1, h2, h3]
  rfl

/-- Concrete environment for the C5 witness: the border is non-uniform
(`std = 100`), the image is dark (so white-key is inapplicable), and the
segmenter marks a single pixel of a 3×3 image as foreground. -/
def c5probs : ℕ → ℕ → ℚ := fun y x => if y = 0 ∧ x = 0 then 1 else 0

/-- The 3×3 all-black witness image for C5. -/
def c5img : Img8 := ⟨3, 3, fun _ _ => (0, 0, 0)⟩

/-- The witness environment for C5. -/
def c5env : Env where
  borderStdMean := fun _ => 100
  colorDist := fun _ _ => 0
  connectedComponents := fun _ => (1, fun _ _ => 0)
  medianBlur5 := fun m => m.pix
  gaussBlur7 := fun p => p
  segmenter := fun _ => some c5probs
  cvtHSV := fun img y x => img.pix y x
  dilate := fun _ _ m => m.pix
  erode := fun _ _ m => m.pix
  grabCut := fun _ _ => none
  gaussBlurMask := fun _ _ _ => 0

/-- The processed neural mask of the C5 witness (1 of 9 pixels set, a
fraction of 1/9). -/
def c5m : GMask :=
  medB c5env ⟨c5img.h, c5img.w, fun y x =>
    decide (c5env.gaussBlur7 c5probs y x > 1/2)⟩

/-- Witness for C5 at the concrete 3×3 input. -/
theorem c5_neural_gate_witness :
    borderColorKeyMask c5env c5img 25 = none ∧
    whiteKeyMask c5env c5img 25 = none ∧
    neuralMask c5env c5img (1/2) = some c5m ∧
    getForegroundMask c5env c5img (1/2) none (4/10) (6/10) false 25 (4/10) =
      (if 2/100 < fgRatio c5m ∧ fgRatio c5m < 98/100 then c5m
       else afterNeural c5env c5img none (4/10) (6/10)) :=
  ⟨by with_unfolding_all rfl, by with_unfolding_all rfl,
   by with_unfolding_all rfl,
   c5_neural_gate c5env c5img (1/2) none (4/10) (6/10) 25 (4/10) c5m
     (by with_unfolding_all rfl) (by with_unfolding_all rfl)
     (by with_unfolding_all rfl)⟩

/-! ## C6 -/

/-- C6 amended: whenever the cascade's mask covers strictly more than 98%
of the image as foreground, the white-key mask is recomputed and replaces
it when the white-key strategy is applicable (returns a mask); otherwise
the original mask is kept. -/
theorem c6_amended_recompute (e : Env) (img : Img8) (threshold : ℚ)
    (faceBbox : Option (ℤ × ℤ × ℤ × ℤ)) (ex ey bgTolerance faceProtect : ℚ)
    (h : fgRatio (getForegroundMask e img threshold faceBbox ex ey true
          bgTolerance faceProtect) > 98/100) :
    chosenMask e img threshold faceBbox ex ey bgTolerance faceProtect =
      (whiteKeyMask e img bgTolerance).getD
        (getForegroundMask e img threshold faceBbox ex ey true
          bgTolerance faceProtect) := by
  unfold chosenMask
  dsimp only
  rw [if_pos h]
  cases hwk : whiteKeyMask e img bgTolerance <;> simp [hwk]

/-- `BORDER_REPLICATE` coordinate clamping into `[0, n-1]`. -/
def clampIdx (n : ℕ) (i : ℤ) : ℕ := (max 0 (min i ((n : ℤ) - 1))).toNat

/-- `cv2.medianBlur(mask, 5)` on a binary 0/255 mask, computed exactly:
the output pixel is foreground iff at least 13 of the 25 values in the
replicated-border 5×5 window are foreground (the median of 25 binary
values is their majority; `cv2.medianBlur` replicates the border). -/
def medianBin5 (m : GMask) : ℕ → ℕ → Bool := fun y x =>
  decide (13 ≤ ((List.range 5).map fun dy =>
    ((List.range 5).filter fun dx =>
      m.pix (clampIdx m.h ((y : ℤ) + dy - 2))
        (clampIdx m.w ((x : ℤ) + dx - 2))).length).sum)

/-- The 10×10 witness image for the amended C6: the top five rows are
black `(0,0,0)`, the bottom five are gray `(200,200,200)`. -/
def c6wimg : Img8 :=
  ⟨10, 10, fun y _ => if y ≤ 4 then (0, 0, 0) else (200, 200, 200)⟩

/-- Witness environment for the amended C6, holding the exact values of
the real library calls on `c6wimg`.  The 200 border samples are half
black, half gray, so `np.std` is exactly 100 per channel and
`float(np.mean(std)) = 100`; being `> 45` (and `> 40`) this makes both
the border-colour-key and the white-key strategies bail out before any
other capability is consulted, and the cascade answers with the HSV
heuristic: `cv2.cvtColor` maps a gray `(g,g,g)` to HSV `(0,0,g)`, no
pixel has value above the 217 threshold, so the raw mask is all
foreground and the true median blur (`medianBin5`) keeps it so.
Capabilities never consulted on this trace (`colorDist`,
`connectedComponents`, the neural segmenter, grabcut, morphology) are
stubbed. -/
def c6wenv : Env where
  borderStdMean := fun _ => 100
  colorDist := fun _ _ => 0
  connectedComponents := fun _ => (1, fun _ _ => 0)
  medianBlur5 := medianBin5
  gaussBlur7 := fun p => p
  segmenter := fun _ => none
  cvtHSV := fun img y x => (0, 0, (img.pix y x).1)
  dilate := fun _ _ m => m.pix
  erode := fun _ _ m => m.pix
  grabCut := fun _ _ => none
  gaussBlurMask := fun _ _ _ => 0

/-- Witness for the amended C6: the cascade's mask covers 100% of
`c6wimg`, which is strictly more than 98%, so the white-key recompute is
attempted; white-key is inapplicable here (`none`), so `getD` keeps the
cascade's mask. -/
theorem c6_amended_recompute_witness :
    fgRatio (getForegroundMask c6wenv c6wimg (1/2) none (4/10) (6/10) true
        25 (4/10)) > 98/100 ∧
    chosenMask c6wenv c6wimg (1/2) none (4/10) (6/10) 25 (4/10) =
      (whiteKeyMask c6wenv c6wimg 25).getD
        (getForegroundMask c6wenv c6wimg (1/2) none (4/10) (6/10) true
          25 (4/10)) :=
  ⟨of_decide_eq_true (by with_unfolding_all rfl),
   c6_amended_recompute c6wenv c6wimg (1/2) none (4/10) (6/10) 25 (4/10)
     (of_decide_eq_true (by with_unfolding_all rfl))⟩

/-- The 10×10 counterexample image for C6, three colours differing only
in the first channel: a 2×4 block `rows {0,1} × cols {3..6}` of
`(90,200,200)`, the region `rows {6..9} × cols {0..7}` (32 pixels) of
`(23,200,200)`, and the remaining 60 pixels of `(212,200,200)`. -/
def c6cimg : Img8 :=
  ⟨10, 10, fun y x =>
    if y ≤ 1 ∧ 3 ≤ x ∧ x ≤ 6 then (90, 200, 200)
    else if 6 ≤ y ∧ x ≤ 7 then (23, 200, 200)
    else (212, 200, 200)⟩

/-- Counterexample environment for C6, holding the exact values of the
real library calls on `c6cimg`.  The 200 border samples (every pixel of
the 10×10 image, twice) have mean `(3544/25, 200, 200) = (141.76, 200,
200)` and per-channel standard deviations `(2192/25, 0, 0) = (87.68, 0,
0)` — `200·(141.76)² + ...` works out exactly because
`100·ΣcountΔ² − (ΣcountΔ)²` is the perfect square `8768²` — so
`float(np.mean(np.std(border, axis=0))) = 2192/75 ≈ 29.23`.  Colour
distances to the border mean are single-channel, hence exact:
`‖(90,200,200) − mean‖ = 1294/25 = 51.76`,
`‖(23,200,200) − mean‖ = 2969/25 = 118.76`,
`‖(212,200,200) − mean‖ = 1756/25 = 70.24`.  With tolerance 25 the
border-key threshold is `25 + 1.5·(2192/75) = 1721/25 = 68.84`, so the
background candidates are exactly the eight `(90,200,200)` pixels; they
form one 2×4 component touching row 0, which `cv2.connectedComponents`
labels 1 (label count 2).  `medianBin5` is the exact binary
`cv2.medianBlur(·, 5)`.  Capabilities never consulted on this trace are
stubbed. -/
def c6cenv : Env where
  borderStdMean := fun _ => 2192/75
  colorDist := fun p _ =>
    if p = (90, 200, 200) then 1294/25
    else if p = (23, 200, 200) then 2969/25
    else 1756/25
  connectedComponents := fun _ =>
    (2, fun y x => if y ≤ 1 ∧ 3 ≤ x ∧ x ≤ 6 then 1 else 0)
  medianBlur5 := medianBin5
  gaussBlur7 := fun p => p
  segmenter := fun _ => none
  cvtHSV := fun img y x => img.pix y x
  dilate := fun _ _ m => m.pix
  erode := fun _ _ m => m.pix
  grabCut := fun _ _ => none
  gaussBlurMask := fun _ _ _ => 0

/-- The mask the cascade picks for the C6 counterexample image: the
border-colour-key mask, whose 8-pixel background block shrinks to the two
pixels `(0,4), (0,5)` under the real median blur — exactly 98%
foreground. -/
def c6m0 : GMask :=
  getForegroundMask c6cenv c6cimg (1/2) none (4/10) (6/10) true 25 (4/10)

/-- C6 counterexample: on `c6cimg` the cascade's mask covers exactly 98%
of the image (49/50, the "at least 98%" of the claim), the white-key
strategy is applicable — its brightness check passes, `13544/75 ≥ 180`,
and its tighter threshold 25 keys out nothing, giving the all-foreground
mask — yet the source's strict `> 0.98` test keeps the cascade's mask,
which differs from the white-key mask at pixel `(0,4)`: no recompute
happens. -/
theorem c6_counterexample :
    fgRatio c6m0 = 49/50 ∧
    chosenMask c6cenv c6cimg (1/2) none (4/10) (6/10) 25 (4/10) = c6m0 ∧
    (whiteKeyMask c6cenv c6cimg 25).isSome = true ∧
    c6m0.pix 0 4 ≠ ((whiteKeyMask c6cenv c6cimg 25).getD c6m0).pix 0 4 :=
  ⟨of_decide_eq_true (by with_unfolding_all rfl),
   by with_unfolding_all rfl,
   by with_unfolding_all rfl,
   of_decide_eq_true (by with_unfolding_all rfl)⟩

/-! ## C10 -/

theorem whiteKeyMask_dims (e : Env) (img : Img8) (t : ℚ) (m : GMask)
    (h : whiteKeyMask e img t = some m) : m.h = img.h ∧ m.w = img.w := by
  unfold whiteKeyMask at h
  split at h
  · exact absurd h (by simp)
  · injection h with h'
    subst h'
    exact ⟨rfl, rfl⟩

theorem borderColorKeyMask_dims (e : Env) (img : Img8) (t : ℚ) (m : GMask)
    (h : borderColorKeyMask e img t = some m) : m.h = img.h ∧ m.w = img.w := by
  unfold borderColorKeyMask at h
  dsimp only at h
  split at h
  · exact absurd h (by simp)
  · split at h
    · exact absurd h (by simp)
    · split at h
      · exact absurd h (by simp)
      · injection h with h'
        subst h'
        exact ⟨rfl, rfl⟩

theorem neuralMask_dims (e : Env) (img : Img8) (t : ℚ) (m : GMask)
    (h : neuralMask e img t = some m) : m.h = img.h ∧ m.w = img.w := by
  unfold neuralMask at h
  rcases Option.map_eq_some'.mp h with ⟨probs, _, rfl⟩
  exact ⟨rfl, rfl⟩

theorem grabCutMask_dims (e : Env) (img : Img8) (x y w h : ℤ) (ex ey : ℚ)
    (m : GMask) (hm : grabCutMask e img x y w h ex ey = some m) :
    m.h = img.h ∧ m.w = img.w := by
  unfold grabCutMask at hm
  dsimp only at hm
  rcases Option.map_eq_some'.mp hm with ⟨lab, _, rfl⟩
  dsimp only [dilateM, medB]
  constructor <;> · split <;> rfl

theorem afterNeural_dims (e : Env) (img : Img8)
    (faceBbox : Option (ℤ × ℤ × ℤ × ℤ)) (ex ey : ℚ) :
    (afterNeural e img faceBbox ex ey).h = img.h ∧
    (afterNeural e img faceBbox ex ey).w = img.w := by
  unfold afterNeural
  rcases faceBbox with _ | ⟨x, y, w, h⟩
  · exact ⟨rfl, rfl⟩
  · dsimp only
    rcases hg : grabCutMask e img x y w h ex ey with _ | m
    · exact ⟨rfl, rfl⟩
    · exact grabCutMask_dims e img x y w h ex ey m hg

theorem getForegroundMask_dims (e : Env) (img : Img8) (threshold : ℚ)
    (faceBbox : Option (ℤ × ℤ × ℤ × ℤ)) (ex ey : ℚ) (prefer : Bool)
    (bgTol fp : ℚ) :
    (getForegroundMask e img threshold faceBbox ex ey prefer bgTol fp).h =
      img.h ∧
    (getForegroundMask e img threshold faceBbox ex ey prefer bgTol fp).w =
      img.w := by
  unfold getForegroundMask
  rcases hb : borderColorKeyMask e img bgTol with _ | mb
  · rcases hw : whiteKeyMask e img bgTol with _ | mw
    · cases prefer
      · rw [if_neg (show ¬(false = true) by decide)]
        rcases hn : neuralMask e img threshold with _ | mn
        · exact afterNeural_dims e img faceBbox ex ey
        · dsimp only
          split
          · exact neuralMask_dims e img threshold mn hn
          · exact afterNeural_dims e img faceBbox ex ey
      · exact ⟨rfl, rfl⟩
    · exact whiteKeyMask_dims e img bgTol mw hw
  · exact borderColorKeyMask_dims e img bgTol mb hb

/-- C10: `replace_background` always returns an image of exactly the same
height, width and 3 channels (the pixel type is a 3-channel value) as its
input, and the cascade's mask always has the image's grid shape, for every
strategy and environment. -/
theorem c10_replace_background_shape (e : Env) (img : Img8)
    (backgroundRgb : Px) (threshold : ℚ)
    (faceBbox : Option (ℤ × ℤ × ℤ × ℤ)) (ex ey bgTolerance faceProtect : ℚ)
    (prefer : Bool) :
    (replaceBackground e img backgroundRgb threshold faceBbox ex ey
      bgTolerance faceProtect).h = img.h ∧
    (replaceBackground e img backgroundRgb threshold faceBbox ex ey
      bgTolerance faceProtect).w = img.w ∧
    (getForegroundMask e img threshold faceBbox ex ey prefer bgTolerance
      faceProtect).h = img.h ∧
    (getForegroundMask e img threshold faceBbox ex ey prefer bgTolerance
      faceProtect).w = img.w :=
  ⟨rfl, rfl, (getForegroundMask_dims e img threshold faceBbox ex ey prefer
      bgTolerance faceProtect).1,
    (getForegroundMask_dims e img threshold faceBbox ex ey prefer
      bgTolerance faceProtect).2⟩

/-! ## Sheet-packer lemmas (towards C3 and C7) -/

theorem paint_pix (s : Img) (region : ℤ → ℤ → Bool) (color : ℤ → ℤ → Px)
    (Y X : ℤ) :
    (paint s region color).pix Y X =
      if (0 ≤ X ∧ X < s.w ∧ 0 ≤ Y ∧ Y < s.h) ∧ region Y X = true then
        color Y X
      else s.pix Y X := rfl

theorem inRect_iff (x0 y0 w h Y X : ℤ) :
    inRect x0 y0 w h Y X = true ↔
      x0 ≤ X ∧ X < x0 + w ∧ y0 ≤ Y ∧ Y < y0 + h := by
  simp [inRect, and_assoc]

theorem onRectOutline_false (x0 y0 x1 y1 Y X : ℤ)
    (hY0 : Y ≠ y0) (hY1 : Y ≠ y1) (hX0 : X ≠ x0) (hX1 : X ≠ x1) :
    onRectOutline x0 y0 x1 y1 Y X = false := by
  rw [Bool.eq_false_iff]
  intro h
  simp only [onRectOutline, Bool.or_eq_true, Bool.and_eq_true,
    decide_eq_true_eq] at h
  omega

theorem cornerTicks_false (x y pw ph Y X : ℤ)
    (hY0 : Y ≠ y) (hY1 : Y ≠ y + ph - 1) (hX0 : X ≠ x) (hX1 : X ≠ x + pw - 1) :
    cornerTicks x y pw ph Y X = false := by
  rw [Bool.eq_false_iff]
  intro h
  simp only [cornerTicks, onHSeg, onVSeg, Bool.or_eq_true, Bool.and_eq_true,
    decide_eq_true_eq] at h
  omega

theorem onVSeg_false_of_ne (x ya yb Y X : ℤ) (h : X ≠ x) :
    onVSeg x ya yb Y X = false := by
  rw [Bool.eq_false_iff]
  intro hc
  simp only [onVSeg, Bool.and_eq_true, decide_eq_true_eq] at hc
  omega

theorem onHSeg_false_of_ne (xa xb y Y X : ℤ) (h : Y ≠ y) :
    onHSeg xa xb y Y X = false := by
  rw [Bool.eq_false_iff]
  intro hc
  simp only [onHSeg, Bool.and_eq_true, decide_eq_true_eq] at hc
  omega

theorem foldl_pres {α : Type} (P : Img → Prop) (f : Img → α → Img)
    (l : List α) (hstep : ∀ s a, P s → P (f s a)) :
    ∀ s, P s → P (l.foldl f s) := by
  induction l with
  | nil => exact fun s hs => hs
  | cons a t ih => exact fun s hs => ih (f s a) (hstep s a hs)

theorem cell_sep_mul {k d : ℤ} (hk : 1 ≤ k) (hd : 0 ≤ d) : d ≤ k * d :=
  le_mul_of_one_le_left hd hk

/-- Horizontal position facts: the interior column `cellX c + u` is never
on the left or right border column of any cell `c'`, and lies strictly
outside every cell other than `c`. -/
theorem colFacts (lm pw s c c' u : ℤ) (hs : 0 ≤ s) (hu1 : 1 ≤ u)
    (hu2 : u ≤ pw - 2) :
    (cellX lm pw s c + u ≠ cellX lm pw s c' ∧
     cellX lm pw s c + u ≠ cellX lm pw s c' + pw - 1) ∧
    (c' = c ∨ cellX lm pw s c + u < cellX lm pw s c' ∨
      cellX lm pw s c' + pw ≤ cellX lm pw s c + u) := by
  rcases lt_trichotomy c' c with hc | hc | hc
  · have h1 : pw + s ≤ (c - c') * (pw + s) := cell_sep_mul (by omega) (by omega)
    have hD : cellX lm pw s c + u - cellX lm pw s c' =
        (c - c') * (pw + s) + u := by
      unfold cellX; ring
    omega
  · have hD : cellX lm pw s c + u - cellX lm pw s c' = u := by
      rw [hc]; unfold cellX; ring
    omega
  · have h1 : pw + s ≤ (c' - c) * (pw + s) := cell_sep_mul (by omega) (by omega)
    have hD : cellX lm pw s c + u - cellX lm pw s c' =
        u - (c' - c) * (pw + s) := by
      unfold cellX; ring
    omega

/-- Vertical position facts, symmetric to `colFacts`. -/
theorem rowFacts (tm ph s r r' v : ℤ) (hs : 0 ≤ s) (hv1 : 1 ≤ v)
    (hv2 : v ≤ ph - 2) :
    (cellY tm ph s r + v ≠ cellY tm ph s r' ∧
     cellY tm ph s r + v ≠ cellY tm ph s r' + ph - 1) ∧
    (r' = r ∨ cellY tm ph s r + v < cellY tm ph s r' ∨
      cellY tm ph s r' + ph ≤ cellY tm ph s r + v) := by
  rcases lt_trichotomy r' r with hr | hr | hr
  · have h1 : ph + s ≤ (r - r') * (ph + s) := cell_sep_mul (by omega) (by omega)
    have hD : cellY tm ph s r + v - cellY tm ph s r' =
        (r - r') * (ph + s) + v := by
      unfold cellY; ring
    omega
  · have hD : cellY tm ph s r + v - cellY tm ph s r' = v := by
      rw [hr]; unfold cellY; ring
    omega
  · have h1 : ph + s ≤ (r' - r) * (ph + s) := cell_sep_mul (by omega) (by omega)
    have hD : cellY tm ph s r + v - cellY tm ph s r' =
        v - (r' - r) * (ph + s) := by
      unfold cellY; ring
    omega

/-- The interior column never coincides with a vertical cut-guide line. -/
theorem vline_ne (lm pw s c col' u : ℤ) (hs : 0 ≤ s) (hu1 : 1 ≤ u)
    (hu2 : u ≤ pw - 2) :
    cellX lm pw s c + u ≠ cellX lm pw s col' - s.fdiv 2 := by
  have hfd1 : 0 ≤ s.fdiv 2 := by
    rw [Int.fdiv_eq_ediv _ (by norm_num)]; omega
  have hfd2 : s.fdiv 2 ≤ s := by
    rw [Int.fdiv_eq_ediv _ (by norm_num)]; omega
  rcases le_or_lt col' c with hc | hc
  · have h1 : 0 ≤ (c - col') * (pw + s) := mul_nonneg (by omega) (by omega)
    have hD : cellX lm pw s c + u - (cellX lm pw s col' - s.fdiv 2) =
        (c - col') * (pw + s) + u + s.fdiv 2 := by
      unfold cellX; ring
    omega
  · have h1 : pw + s ≤ (col' - c) * (pw + s) := cell_sep_mul (by omega) (by omega)
    have hD : cellX lm pw s c + u - (cellX lm pw s col' - s.fdiv 2) =
        u + s.fdiv 2 - (col' - c) * (pw + s) := by
      unfold cellX; ring
    omega

/-- The interior row never coincides with a horizontal cut-guide line. -/
theorem hline_ne (tm ph s r row' v : ℤ) (hs : 0 ≤ s) (hv1 : 1 ≤ v)
    (hv2 : v ≤ ph - 2) :
    cellY tm ph s r + v ≠ cellY tm ph s row' - s.fdiv 2 := by
  have hfd1 : 0 ≤ s.fdiv 2 := by
    rw [Int.fdiv_eq_ediv _ (by norm_num)]; omega
  have hfd2 : s.fdiv 2 ≤ s := by
    rw [Int.fdiv_eq_ediv _ (by norm_num)]; omega
  rcases le_or_lt row' r with hr | hr
  · have h1 : 0 ≤ (r - row') * (ph + s) := mul_nonneg (by omega) (by omega)
    have hD : cellY tm ph s r + v - (cellY tm ph s row' - s.fdiv 2) =
        (r - row') * (ph + s) + v + s.fdiv 2 := by
      unfold cellY; ring
    omega
  · have h1 : ph + s ≤ (row' - r) * (ph + s) := cell_sep_mul (by omega) (by omega)
    have hD : cellY tm ph s r + v - (cellY tm ph s row' - s.fdiv 2) =
        v + s.fdiv 2 - (row' - r) * (ph + s) := by
      unfold cellY; ring
    omega

theorem pasteStep_dims (photo' : Img) (lm tm pw ph spacing : ℤ) (dg : Bool)
    (s : Img) (rc : ℤ × ℤ) :
    (pasteStep photo' lm tm pw ph spacing dg s rc).h = s.h ∧
    (pasteStep photo' lm tm pw ph spacing dg s rc).w = s.w := by
  unfold pasteStep
  cases dg <;> exact ⟨rfl, rfl⟩

/-- Pasting any cell keeps the value at an interior point of cell `(r, c)`
equal to the corresponding photo pixel. -/
theorem pasteStep_pix_pres (photo' : Img) (lm tm pw ph spacing : ℤ)
    (dg : Bool) (r c u v : ℤ) (rc : ℤ × ℤ) (s : Img)
    (hpw : photo'.w = pw) (hph : photo'.h = ph) (hs : 0 ≤ spacing)
    (hu1 : 1 ≤ u) (hu2 : u ≤ pw - 2) (hv1 : 1 ≤ v) (hv2 : v ≤ ph - 2)
    (hpix : s.pix (cellY tm ph spacing r + v) (cellX lm pw spacing c + u) =
      photo'.pix v u) :
    (pasteStep photo' lm tm pw ph spacing dg s rc).pix
      (cellY tm ph spacing r + v) (cellX lm pw spacing c + u) =
      photo'.pix v u := by
  obtain ⟨r', c'⟩ := rc
  have hcol := colFacts lm pw spacing c c' u hs hu1 hu2
  have hrow := rowFacts tm ph spacing r r' v hs hv1 hv2
  unfold pasteStep
  dsimp only
  have houtline :
      onRectOutline (cellX lm pw spacing c') (cellY tm ph spacing r')
        (cellX lm pw spacing c' + pw - 1) (cellY tm ph spacing r' + ph - 1)
        (cellY tm ph spacing r + v) (cellX lm pw spacing c + u) = false :=
    onRectOutline_false _ _ _ _ _ _ hrow.1.1 hrow.1.2 hcol.1.1 hcol.1.2
  have hpaste :
      (pasteCell photo' (cellX lm pw spacing c') (cellY tm ph spacing r')
        s).pix (cellY tm ph spacing r + v) (cellX lm pw spacing c + u) =
      photo'.pix v u := by
    unfold pasteCell
    rw [paint_pix]
    rcases hcol.2 with hc | hmissx
    · rcases hrow.2 with hr | hmissy
      · rw [hc, hr]
        split
        · rw [show cellY tm ph spacing r + v - cellY tm ph spacing r = v
              from by omega,
            show cellX lm pw spacing c + u - cellX lm pw spacing c = u
              from by omega]
        · exact hpix
      · have hrect : inRect (cellX lm pw spacing c')
            (cellY tm ph spacing r') photo'.w photo'.h
            (cellY tm ph spacing r + v) (cellX lm pw spacing c + u) =
            false := by
          rw [hpw, hph, Bool.eq_false_iff]
          intro hr
          rw [inRect_iff] at hr
          omega
        rw [hrect]
        simp [hpix]
    · have hrect : inRect (cellX lm pw spacing c')
          (cellY tm ph spacing r') photo'.w photo'.h
          (cellY tm ph spacing r + v) (cellX lm pw spacing c + u) =
          false := by
        rw [hpw, hph, Bool.eq_false_iff]
        intro hr
        rw [inRect_iff] at hr
        omega
      rw [hrect]
      simp [hpix]
  split
  · unfold drawOutline
    rw [paint_pix, houtline]
    simpa using hpaste
  · exact hpaste

/-- Pasting the cell `(r, c)` itself sets an interior point to the photo
pixel. -/
theorem pasteStep_pix_set (photo' : Img) (sw sh lm tm pw ph spacing : ℤ)
    (dg : Bool) (r c u v : ℤ) (s : Img)
    (hpw : photo'.w = pw) (hph : photo'.h = ph) (hs : 0 ≤ spacing)
    (hu1 : 1 ≤ u) (hu2 : u ≤ pw - 2) (hv1 : 1 ≤ v) (hv2 : v ≤ ph - 2)
    (hsh : s.h = sh) (hsw : s.w = sw)
    (hx0 : 0 ≤ cellX lm pw spacing c + u)
    (hx1 : cellX lm pw spacing c + u < sw)
    (hy0 : 0 ≤ cellY tm ph spacing r + v)
    (hy1 : cellY tm ph spacing r + v < sh) :
    (pasteStep photo' lm tm pw ph spacing dg s (r, c)).pix
      (cellY tm ph spacing r + v) (cellX lm pw spacing c + u) =
      photo'.pix v u := by
  have hcol := colFacts lm pw spacing c c u hs hu1 hu2
  have hrow := rowFacts tm ph spacing r r v hs hv1 hv2
  unfold pasteStep
  dsimp only
  have hpaste :
      (pasteCell photo' (cellX lm pw spacing c) (cellY tm ph spacing r)
        s).pix (cellY tm ph spacing r + v) (cellX lm pw spacing c + u) =
      photo'.pix v u := by
    unfold pasteCell
    rw [paint_pix, if_pos]
    · rw [show cellY tm ph spacing r + v - cellY tm ph spacing r = v
          from by omega,
        show cellX lm pw spacing c + u - cellX lm pw spacing c = u
          from by omega]
    · refine ⟨⟨hx0, by omega, hy0, by omega⟩, ?_⟩
      rw [hpw, hph, inRect_iff]
      omega
  split
  · unfold drawOutline
    rw [paint_pix,
      onRectOutline_false _ _ _ _ _ _ hrow.1.1 hrow.1.2 hcol.1.1 hcol.1.2]
    simpa using hpaste
  · exact hpaste

theorem vlineStep_pix_pres (lm tm pw ph spacing rows : ℤ) (r c u v : ℤ)
    (cIdx : ℕ) (s : Img) (t : Px) (hs : 0 ≤ spacing)
    (hu1 : 1 ≤ u) (hu2 : u ≤ pw - 2)
    (hpix : s.pix (cellY tm ph spacing r + v) (cellX lm pw spacing c + u) = t) :
    (vlineStep lm tm pw ph spacing rows s cIdx).pix
      (cellY tm ph spacing r + v) (cellX lm pw spacing c + u) = t := by
  unfold vlineStep
  dsimp only
  rw [paint_pix,
    onVSeg_false_of_ne _ _ _ _ _ (vline_ne lm pw spacing c (cIdx : ℤ) u hs hu1 hu2)]
  simpa using hpix

theorem hlineStep_pix_pres (lm tm pw ph spacing cols : ℤ) (r c u v : ℤ)
    (rIdx : ℕ) (s : Img) (t : Px) (hs : 0 ≤ spacing)
    (hv1 : 1 ≤ v) (hv2 : v ≤ ph - 2)
    (hpix : s.pix (cellY tm ph spacing r + v) (cellX lm pw spacing c + u) = t) :
    (hlineStep lm tm pw ph spacing cols s rIdx).pix
      (cellY tm ph spacing r + v) (cellX lm pw spacing c + u) = t := by
  unfold hlineStep
  dsimp only
  rw [paint_pix,
    onHSeg_false_of_ne _ _ _ _ _ (hline_ne tm ph spacing r (rIdx : ℤ) v hs hv1 hv2)]
  simpa using hpix

theorem tickStep_pix_pres (lm tm pw ph spacing : ℤ) (r c u v : ℤ)
    (rc : ℤ × ℤ) (s : Img) (t : Px) (hs : 0 ≤ spacing)
    (hu1 : 1 ≤ u) (hu2 : u ≤ pw - 2) (hv1 : 1 ≤ v) (hv2 : v ≤ ph - 2)
    (hpix : s.pix (cellY tm ph spacing r + v) (cellX lm pw spacing c + u) = t) :
    (tickStep lm tm pw ph spacing s rc).pix
      (cellY tm ph spacing r + v) (cellX lm pw spacing c + u) = t := by
  obtain ⟨r', c'⟩ := rc
  have hcol := colFacts lm pw spacing c c' u hs hu1 hu2
  have hrow := rowFacts tm ph spacing r r' v hs hv1 hv2
  unfold tickStep
  rw [paint_pix,
    cornerTicks_false _ _ _ _ _ _ hrow.1.1 hrow.1.2 hcol.1.1 hcol.1.2]
  simpa using hpix

/-- Interior pixels of a placed cell on the packed sheet equal the pasted
photo's pixels, guides and all. -/
theorem packSheet_interior (photo' : Img)
    (sw sh lm tm pw ph spacing cols rows copies r c u v : ℤ)
    (hpw : photo'.w = pw) (hph : photo'.h = ph) (hs : 0 ≤ spacing)
    (hu1 : 1 ≤ u) (hu2 : u ≤ pw - 2) (hv1 : 1 ≤ v) (hv2 : v ≤ ph - 2)
    (hmem : (r, c) ∈ placedCells rows cols copies)
    (hx0 : 0 ≤ cellX lm pw spacing c + u)
    (hx1 : cellX lm pw spacing c + u < sw)
    (hy0 : 0 ≤ cellY tm ph spacing r + v)
    (hy1 : cellY tm ph spacing r + v < sh) :
    (packSheet photo' sw sh lm tm pw ph spacing cols rows copies true).pix
      (cellY tm ph spacing r + v) (cellX lm pw spacing c + u) =
      photo'.pix v u := by
  unfold packSheet
  dsimp only
  rw [if_pos rfl]
  obtain ⟨l1, l2, hsplit⟩ := List.append_of_mem hmem
  rw [hsplit]
  simp only [List.foldl_append, List.foldl_cons]
  have hdims :
      (List.foldl (pasteStep photo' lm tm pw ph spacing true)
        { h := sh, w := sw, pix := fun _ _ => (255, 255, 255) } l1).h = sh ∧
      (List.foldl (pasteStep photo' lm tm pw ph spacing true)
        { h := sh, w := sw, pix := fun _ _ => (255, 255, 255) } l1).w = sw :=
    foldl_pres (fun s0 => s0.h = sh ∧ s0.w = sw) _ l1
      (fun s0 a hd =>
        ⟨(pasteStep_dims photo' lm tm pw ph spacing true s0 a).1.trans hd.1,
         (pasteStep_dims photo' lm tm pw ph spacing true s0 a).2.trans hd.2⟩)
      _ ⟨rfl, rfl⟩
  have hmid := pasteStep_pix_set photo' sw sh lm tm pw ph spacing true r c u v
    _ hpw hph hs hu1 hu2 hv1 hv2 hdims.1 hdims.2 hx0 hx1 hy0 hy1
  have hpaste := foldl_pres
    (fun s0 => s0.pix (cellY tm ph spacing r + v)
      (cellX lm pw spacing c + u) = photo'.pix v u)
    (pasteStep photo' lm tm pw ph spacing true) l2
    (fun s0 a hp => pasteStep_pix_pres photo' lm tm pw ph spacing true
      r c u v a s0 hpw hph hs hu1 hu2 hv1 hv2 hp) _ hmid
  have hvl := foldl_pres
    (fun s0 => s0.pix (cellY tm ph spacing r + v)
      (cellX lm pw spacing c + u) = photo'.pix v u)
    (vlineStep lm tm pw ph spacing rows) (List.range' 1 (cols - 1).toNat)
    (fun s0 a hp => vlineStep_pix_pres lm tm pw ph spacing rows r c u v a s0
      _ hs hu1 hu2 hp) _ hpaste
  have hhl := foldl_pres
    (fun s0 => s0.pix (cellY tm ph spacing r + v)
      (cellX lm pw spacing c + u) = photo'.pix v u)
    (hlineStep lm tm pw ph spacing cols) (List.range' 1 (rows - 1).toNat)
    (fun s0 a hp => hlineStep_pix_pres lm tm pw ph spacing cols r c u v a s0
      _ hs hv1 hv2 hp) _ hvl
  have htick1 := foldl_pres
    (fun s0 => s0.pix (cellY tm ph spacing r + v)
      (cellX lm pw spacing c + u) = photo'.pix v u)
    (tickStep lm tm pw ph spacing) l1
    (fun s0 a hp => tickStep_pix_pres lm tm pw ph spacing r c u v a s0
      _ hs hu1 hu2 hv1 hv2 hp) _ hhl
  have htick2 := tickStep_pix_pres lm tm pw ph spacing r c u v (r, c) _
    _ hs hu1 hu2 hv1 hv2 htick1
  exact foldl_pres
    (fun s0 => s0.pix (cellY tm ph spacing r + v)
      (cellX lm pw spacing c + u) = photo'.pix v u)
    (tickStep lm tm pw ph spacing) l2
    (fun s0 a hp => tickStep_pix_pres lm tm pw ph spacing r c u v a s0
      _ hs hu1 hu2 hv1 hv2 hp) _ htick2

theorem chosenPhoto_dims (photo : Img) (layout : LayoutSpec) (dpi : ℤ)
    (margin_in spacing_in : ℚ) :
    (chosenPhoto photo layout dpi margin_in spacing_in).w =
      chosenPW photo layout dpi margin_in spacing_in ∧
    (chosenPhoto photo layout dpi margin_in spacing_in).h =
      chosenPH photo layout dpi margin_in spacing_in := by
  unfold chosenPhoto chosenPW chosenPH
  split <;> exact ⟨rfl, rfl⟩

/-! ## C3 -/

/-- C3 amended: with guides drawn, every pixel strictly inside a placed
photo cell — off the cell's 1-pixel boundary frame, where the outline,
corner ticks and (for small spacing) guide lines may land — equals the
corresponding pixel of the pasted photo, for nonnegative pixel spacing. -/
theorem c3_amended_interior_pixels (photo : Img) (layout : LayoutSpec)
    (dpi : ℤ) (margin_in spacing_in : ℚ) (copies r c u v : ℤ)
    (hs : 0 ≤ spacingPx spacing_in dpi)
    (hmem : (r, c) ∈ placedCells
      (chosenRows photo layout dpi margin_in spacing_in)
      (chosenCols photo layout dpi margin_in spacing_in) copies)
    (hu1 : 1 ≤ u) (hu2 : u ≤ chosenPW photo layout dpi margin_in spacing_in - 2)
    (hv1 : 1 ≤ v) (hv2 : v ≤ chosenPH photo layout dpi margin_in spacing_in - 2)
    (hx0 : 0 ≤ cellX (chosenLM photo layout dpi margin_in spacing_in)
      (chosenPW photo layout dpi margin_in spacing_in)
      (spacingPx spacing_in dpi) c + u)
    (hx1 : cellX (chosenLM photo layout dpi margin_in spacing_in)
      (chosenPW photo layout dpi margin_in spacing_in)
      (spacingPx spacing_in dpi) c + u < sheetW layout dpi)
    (hy0 : 0 ≤ cellY (chosenTM photo layout dpi margin_in spacing_in)
      (chosenPH photo layout dpi margin_in spacing_in)
      (spacingPx spacing_in dpi) r + v)
    (hy1 : cellY (chosenTM photo layout dpi margin_in spacing_in)
      (chosenPH photo layout dpi margin_in spacing_in)
      (spacingPx spacing_in dpi) r + v < sheetH layout dpi) :
    (buildPrintSheet photo layout dpi margin_in spacing_in copies true).pix
      (cellY (chosenTM photo layout dpi margin_in spacing_in)
        (chosenPH photo layout dpi margin_in spacing_in)
        (spacingPx spacing_in dpi) r + v)
      (cellX (chosenLM photo layout dpi margin_in spacing_in)
        (chosenPW photo layout dpi margin_in spacing_in)
        (spacingPx spacing_in dpi) c + u) =
      (chosenPhoto photo layout dpi margin_in spacing_in).pix v u := by
  unfold buildPrintSheet
  exact packSheet_interior (chosenPhoto photo layout dpi margin_in spacing_in)
    (sheetW layout dpi) (sheetH layout dpi) _ _ _ _ _ _ _ _ r c u v
    (chosenPhoto_dims photo layout dpi margin_in spacing_in).1
    (chosenPhoto_dims photo layout dpi margin_in spacing_in).2
    hs hu1 hu2 hv1 hv2 hmem hx0 hx1 hy0 hy1

/-- Witness photo for the amended C3: a 6×6 uniform photo on a one-cell
sheet. -/
def photoC3w : Img := ⟨6, 6, fun _ _ => (50, 60, 70)⟩

/-- Witness for the amended C3 at a concrete input: the pixel one step
inside the placed photo's corner equals the photo pixel. -/
theorem c3_amended_interior_pixels_witness :
    (0 : ℤ) ≤ spacingPx 0 1 ∧
    ((0 : ℤ), (0 : ℤ)) ∈ placedCells (chosenRows photoC3w ⟨6, 6⟩ 1 0 0)
      (chosenCols photoC3w ⟨6, 6⟩ 1 0 0) 1 ∧
    (buildPrintSheet photoC3w ⟨6, 6⟩ 1 0 0 1 true).pix
      (cellY (chosenTM photoC3w ⟨6, 6⟩ 1 0 0) (chosenPH photoC3w ⟨6, 6⟩ 1 0 0)
        (spacingPx 0 1) 0 + 1)
      (cellX (chosenLM photoC3w ⟨6, 6⟩ 1 0 0) (chosenPW photoC3w ⟨6, 6⟩ 1 0 0)
        (spacingPx 0 1) 0 + 1) =
      (chosenPhoto photoC3w ⟨6, 6⟩ 1 0 0).pix 1 1 :=
  ⟨of_decide_eq_true (by with_unfolding_all rfl),
   of_decide_eq_true (by with_unfolding_all rfl),
   c3_amended_interior_pixels photoC3w ⟨6, 6⟩ 1 0 0 1 0 0 1 1
     (of_decide_eq_true (by with_unfolding_all rfl))
     (of_decide_eq_true (by with_unfolding_all rfl))
     (by decide) (of_decide_eq_true (by with_unfolding_all rfl))
     (by decide) (of_decide_eq_true (by with_unfolding_all rfl))
     (of_decide_eq_true (by with_unfolding_all rfl))
     (of_decide_eq_true (by with_unfolding_all rfl))
     (of_decide_eq_true (by with_unfolding_all rfl))
     (of_decide_eq_true (by with_unfolding_all rfl))⟩

/-- The 4×4 uniform photo of the C3 counterexample. -/
def photoC3 : Img := ⟨4, 4, fun _ _ => (100, 100, 100)⟩

/-- C3 counterexample: with guides drawn, the corner pixel `(0, 0)` of the
placed photo cell — a pixel inside the photo's rectangle — holds the
corner-tick colour `(180, 180, 180)`, not the photo pixel
`(100, 100, 100)`: guide art is drawn on top of photo pixels. -/
theorem c3_counterexample :
    (buildPrintSheet photoC3 ⟨4, 4⟩ 1 0 0 1 true).pix 0 0 = (180, 180, 180) ∧
    chosenRot photoC3 ⟨4, 4⟩ 1 0 0 = false ∧
    cellX (chosenLM photoC3 ⟨4, 4⟩ 1 0 0) (chosenPW photoC3 ⟨4, 4⟩ 1 0 0)
      (spacingPx 0 1) 0 = 0 ∧
    cellY (chosenTM photoC3 ⟨4, 4⟩ 1 0 0) (chosenPH photoC3 ⟨4, 4⟩ 1 0 0)
      (spacingPx 0 1) 0 = 0 ∧
    photoC3.pix 0 0 = (100, 100, 100) ∧
    ((180, 180, 180) : Px) ≠ (100, 100, 100) :=
  ⟨of_decide_eq_true (by with_unfolding_all rfl),
   of_decide_eq_true (by with_unfolding_all rfl),
   of_decide_eq_true (by with_unfolding_all rfl),
   of_decide_eq_true (by with_unfolding_all rfl),
   by decide, by decide⟩

/-! ## C7 -/

theorem fdiv_le_one_of_lt (avail cell : ℤ) (h1 : 1 ≤ cell)
    (hhi : avail < 2 * cell) : avail.fdiv cell ≤ 1 := by
  have hm := Int.fmod_add_fdiv avail cell
  have h3 : avail.fmod cell < cell := Int.fmod_lt_of_pos avail (by omega)
  have h4 : 0 ≤ avail.fmod cell := Int.fmod_nonneg' avail (by omega)
  by_contra hq
  push_neg at hq
  have h5 : cell * 2 ≤ cell * avail.fdiv cell :=
    mul_le_mul_of_nonneg_left (by omega) (by omega)
  omega

theorem fitCount_one (avail cell : ℤ) (h1 : 1 ≤ cell)
    (hhi : avail < 2 * cell) : fitCount avail 0 cell = 1 := by
  unfold fitCount
  simp only [add_zero]
  have := fdiv_le_one_of_lt avail cell h1 hhi
  omega

theorem packSheet_noguides (photo' : Img)
    (sw sh lm tm pw ph spacing cols rows copies : ℤ) :
    packSheet photo' sw sh lm tm pw ph spacing cols rows copies false =
      (placedCells rows cols copies).foldl
        (pasteStep photo' lm tm pw ph spacing false)
        { h := sh, w := sw, pix := fun _ _ => (255, 255, 255) } := rfl

theorem pasteStep_false (photo' : Img) (lm tm pw ph spacing : ℤ) (s : Img)
    (rc : ℤ × ℤ) :
    pasteStep photo' lm tm pw ph spacing false s rc =
      pasteCell photo' (cellX lm pw spacing rc.2) (cellY tm ph spacing rc.1)
        s := rfl

/-- C7 amended: with one copy, zero margin and spacing, guides off, and a
layout whose pixel size equals the photo's, the sheet is pixel-identical
to the photo — provided neither side is at least twice the other, so that
the rotated orientation does not fit strictly more copies. -/
theorem c7_amended_round_trip (photo : Img) (layout : LayoutSpec) (dpi : ℤ)
    (margin_in spacing_in : ℚ)
    (hW : sheetW layout dpi = photo.w) (hH : sheetH layout dpi = photo.h)
    (hm : marginPx margin_in dpi = 0) (hsp : spacingPx spacing_in dpi = 0)
    (hpw : 1 ≤ photo.w) (hph : 1 ≤ photo.h)
    (hwh : photo.w < 2 * photo.h) (hhw : photo.h < 2 * photo.w) :
    (buildPrintSheet photo layout dpi margin_in spacing_in 1 false).h =
      photo.h ∧
    (buildPrintSheet photo layout dpi margin_in spacing_in 1 false).w =
      photo.w ∧
    ∀ Y X, 0 ≤ Y → Y < photo.h → 0 ≤ X → X < photo.w →
      (buildPrintSheet photo layout dpi margin_in spacing_in 1 false).pix Y X
        = photo.pix Y X := by
  have haW : availW layout dpi margin_in = photo.w := by
    unfold availW; omega
  have haH : availH layout dpi margin_in = photo.h := by
    unfold availH; omega
  have hfww : fitCount (availW layout dpi margin_in) (spacingPx spacing_in dpi)
      photo.w = 1 := by
    rw [haW, hsp]; exact fitCount_one _ _ (by omega) (by omega)
  have hfhh : fitCount (availH layout dpi margin_in) (spacingPx spacing_in dpi)
      photo.h = 1 := by
    rw [haH, hsp]; exact fitCount_one _ _ (by omega) (by omega)
  have hfwh : fitCount (availW layout dpi margin_in) (spacingPx spacing_in dpi)
      photo.h = 1 := by
    rw [haW, hsp]; exact fitCount_one _ _ (by omega) (by omega)
  have hfhw : fitCount (availH layout dpi margin_in) (spacingPx spacing_in dpi)
      photo.w = 1 := by
    rw [haH, hsp]; exact fitCount_one _ _ (by omega) (by omega)
  have hrot : chosenRot photo layout dpi margin_in spacing_in = false := by
    unfold chosenRot sheetRotates totalRot totalOrig
    rw [hfww, hfhh, hfwh, hfhw]
    rfl
  have hcPW : chosenPW photo layout dpi margin_in spacing_in = photo.w := by
    unfold chosenPW; rw [hrot]; rfl
  have hcPH : chosenPH photo layout dpi margin_in spacing_in = photo.h := by
    unfold chosenPH; rw [hrot]; rfl
  have hcPhoto : chosenPhoto photo layout dpi margin_in spacing_in = photo := by
    unfold chosenPhoto; rw [hrot]; rfl
  have hcCols : chosenCols photo layout dpi margin_in spacing_in = 1 := by
    unfold chosenCols; rw [hcPW]; exact hfww
  have hcRows : chosenRows photo layout dpi margin_in spacing_in = 1 := by
    unfold chosenRows; rw [hcPH]; exact hfhh
  have hcLM : chosenLM photo layout dpi margin_in spacing_in = 0 := by
    unfold chosenLM centeredMargin
    rw [hm, haW, hcCols, hcPW, hsp]
    simp [Int.zero_fdiv]
  have hcTM : chosenTM photo layout dpi margin_in spacing_in = 0 := by
    unfold chosenTM centeredMargin
    rw [hm, haH, hcRows, hcPH, hsp]
    simp [Int.zero_fdiv]
  have hcells : placedCells 1 1 1 = [(0, 0)] := by decide
  unfold buildPrintSheet
  rw [hcPhoto, hcLM, hcTM, hcPW, hcPH, hcCols, hcRows, hsp, hW, hH,
    packSheet_noguides, hcells]
  simp only [List.foldl_cons, List.foldl_nil, pasteStep_false]
  refine ⟨rfl, rfl, fun Y X hY0 hY1 hX0 hX1 => ?_⟩
  unfold pasteCell
  rw [paint_pix, if_pos]
  · rw [show Y - cellY 0 photo.h 0 0 = Y from by unfold cellY; ring,
      show X - cellX 0 photo.w 0 0 = X from by unfold cellX; ring]
  · refine ⟨⟨hX0, hX1, hY0, hY1⟩, ?_⟩
    rw [inRect_iff]
    have hx : cellX 0 photo.w 0 0 = 0 := by unfold cellX; ring
    have hy : cellY 0 photo.h 0 0 = 0 := by unfold cellY; ring
    omega

/-- Witness photo for the amended C7. -/
def photoC7w : Img := ⟨2, 2, fun _ _ => (9, 8, 7)⟩

/-- Witness for the amended C7 at a concrete 2×2 photo on a 2×2-pixel
sheet. -/
theorem c7_amended_round_trip_witness :
    sheetW ⟨2, 2⟩ 1 = photoC7w.w ∧ marginPx 0 1 = 0 ∧
    ((buildPrintSheet photoC7w ⟨2, 2⟩ 1 0 0 1 false).h = photoC7w.h ∧
     (buildPrintSheet photoC7w ⟨2, 2⟩ 1 0 0 1 false).w = photoC7w.w ∧
     ∀ Y X, 0 ≤ Y → Y < photoC7w.h → 0 ≤ X → X < photoC7w.w →
       (buildPrintSheet photoC7w ⟨2, 2⟩ 1 0 0 1 false).pix Y X =
         photoC7w.pix Y X) :=
  ⟨of_decide_eq_true (by with_unfolding_all rfl),
   of_decide_eq_true (by with_unfolding_all rfl),
   c7_amended_round_trip photoC7w ⟨2, 2⟩ 1 0 0
     (of_decide_eq_true (by with_unfolding_all rfl))
     (of_decide_eq_true (by with_unfolding_all rfl))
     (of_decide_eq_true (by with_unfolding_all rfl))
     (of_decide_eq_true (by with_unfolding_all rfl))
     (by decide) (by decide) (by decide) (by decide)⟩

/-- The 2×1 photo of the C7 counterexample, with a distinctive second
pixel. -/
def photoC7 : Img :=
  ⟨1, 2, fun Y X => if Y = 0 ∧ X = 1 then (4, 5, 6) else (1, 2, 3)⟩

/-- C7 counterexample: for a 2×1 photo on a layout of exactly the photo's
size (copies = 1, margin = spacing = 0, no guides) the source rotates the
photo — the rotated orientation fits 2 cells — and the resulting sheet is
not pixel-identical to the photo: pixel `(0, 1)` is sheet background. -/
theorem c7_counterexample :
    sheetW ⟨2, 1⟩ 1 = photoC7.w ∧ sheetH ⟨2, 1⟩ 1 = photoC7.h ∧
    chosenRot photoC7 ⟨2, 1⟩ 1 0 0 = true ∧
    (buildPrintSheet photoC7 ⟨2, 1⟩ 1 0 0 1 false).pix 0 1 =
      (255, 255, 255) ∧
    photoC7.pix 0 1 = (4, 5, 6) ∧
    ((255, 255, 255) : Px) ≠ (4, 5, 6) :=
  ⟨of_decide_eq_true (by with_unfolding_all rfl),
   of_decide_eq_true (by with_unfolding_all rfl),
   of_decide_eq_true (by with_unfolding_all rfl),
   of_decide_eq_true (by with_unfolding_all rfl),
   by decide, by decide⟩

end IDPhoto
